import Mathlib

/-!
# Shallow embedding of `server.cjs` (nakladie invoice server)

The repository ships two variants of `server.cjs`, concatenated in
`src/server.cjs`:

* **variant A** (sql.js, src lines 1-212): in-memory database exported to
  disk after each mutation; sweep `cleanupPayments` uses synchronous
  `fs.existsSync`/`fs.unlinkSync`.
* **variant B** (sqlite3, src lines 213-494): callback-style database;
  sweep `cleanupOldPayments` uses asynchronous fire-and-forget `fs.unlink`.

Modelling conventions:

* An SQL row of the `invoices` table is a `Invoice`; the table is a
  `Store` (rows in insertion order, plus the AUTOINCREMENT counter).
* The payments directory on disk is a list of full path strings (`Fs`).
* Clock values are explicit parameters: `now : Int` is `Date.now()` in
  milliseconds, `nowIso : String` is `new Date().toISOString()`.
* JavaScript `Date.parse` (and SQLite's `datetime` conversion of the same
  ISO strings) is an abstract parameter `parse : String → Option Int`
  (milliseconds since the epoch; `none` models `NaN`).
* `fs.unlink`/`fs.unlinkSync` failures other than "file absent" are
  modelled by a predicate `unlinkFails : String → Bool` on full paths.
* `path.join(rootDir, "/payments/x")` (variant A) and
  `path.join(uploadsRoot, "payments/x")` after the regexp strip
  (variant B) both resolve to the same disk path, modelled by `fullPath`.
-/

namespace Nakladie

/-- A row of the `invoices` table.  Column types follow the schema:
`TEXT` columns are `Option String` (NULL = `none`), `amount REAL` is
`Option Int` (the claims never do float arithmetic on it),
`need_new_request`/`paid` are the 0/1 integers written by the code,
modelled as `Bool`. -/
structure Invoice where
  id : Nat
  supplier : Option String := none
  organization_type : Option String := none
  amount : Option Int := none
  created_at : Option String := none
  arrival_date : Option String := none
  need_new_request : Bool := false
  paid : Bool := false
  payment_file : Option String := none
  paid_at : Option String := none
deriving DecidableEq

/-- The `invoices` table plus the AUTOINCREMENT counter. -/
structure Store where
  rows : List Invoice
  nextId : Nat
deriving DecidableEq

/-- The payments directory: the set of full paths present on disk. -/
abbrev Fs := List String

/-- Error taxonomy of the HTTP layer: 400 validation, 404 not-found,
and a 500-style server error. -/
inductive ApiErr
  | validation
  | notFound
  | serverError
deriving DecidableEq

deriving instance DecidableEq for Except

/-- `10 * 24 * 60 * 60 * 1000` — the retention window in milliseconds
(`maxAge` in variant A, `tenDaysMs` in variant B). -/
def maxAgeMs : Int := 10 * 24 * 60 * 60 * 1000

/-- Resolution of a stored `payment_file` reference `/payments/<f>`
against the data root; both variants join it to the directory that
contains the database file. -/
def fullPath (rootDir pf : String) : String := rootDir ++ pf

/-- The row update `UPDATE invoices SET payment_file=NULL WHERE id=...`
applied to a single row. -/
def clearPF (r : Invoice) : Invoice := { r with payment_file := none }

/-- `UPDATE invoices SET payment_file=NULL WHERE id = i` over the table. -/
def clearById (rows : List Invoice) (i : Nat) : List Invoice :=
  rows.map fun r => if r.id = i then clearPF r else r

/-- JS truthiness test `!x` for a TEXT value: `null`/`undefined` and the
empty string are falsy. -/
def strFalsy : Option String → Bool
  | none => true
  | some s => s == ""

/-- JS truthiness test `!x` for a numeric value: `null`/`undefined`/`NaN`
(= `none`) and `0` are falsy. -/
def intFalsy : Option Int → Bool
  | none => true
  | some n => n == 0

/-- Lexicographic comparison of character lists by code point — on the
ASCII strings the server stores this is exactly SQLite's BINARY
(`memcmp`) collation for TEXT values. -/
def charListLt : List Char → List Char → Bool
  | _, [] => false
  | [], _ :: _ => true
  | a :: as, b :: bs =>
    if a.toNat < b.toNat then true
    else if b.toNat < a.toNat then false
    else charListLt as bs

/-- SQLite TEXT comparison `a < b` (BINARY collation). -/
def strLtb (a b : String) : Bool := charListLt a.data b.data

/-! ## Retention sweep, variant A (`cleanupPayments`, src lines 64-86) -/

/-- The snapshot taken by
`SELECT id, payment_file, paid_at FROM invoices WHERE payment_file IS NOT NULL`. -/
def itemsA (s : Store) : List Invoice :=
  s.rows.filter fun r => r.payment_file.isSome

/-- State threaded through the `items.forEach` loop of variant A.
`aborted` records that `fs.unlinkSync` threw, which ends the whole
request (sql.js keeps the in-memory updates made so far). -/
structure SweepA where
  rows : List Invoice
  fs : Fs
  aborted : Bool
deriving DecidableEq

/-- One iteration of variant A's `items.forEach(row => ...)`:
skip falsy `paid_at` (`!row.paid_at`), skip unparseable dates
(`now - NaN > maxAge` is false), otherwise delete the file when present
(`existsSync` guard; `unlinkSync` may throw) and null `payment_file`. -/
def stepA (rootDir : String) (now : Int) (parse : String → Option Int)
    (unlinkFails : String → Bool) (st : SweepA) (row : Invoice) : SweepA :=
  if st.aborted then st else
  match row.paid_at with
  | none => st
  | some pa =>
    if pa = "" then st else
    match parse pa with
    | none => st
    | some t =>
      if maxAgeMs < now - t then
        match row.payment_file with
        | none => st
        | some pf =>
          let full := fullPath rootDir pf
          if full ∈ st.fs then
            if unlinkFails full then { st with aborted := true }
            else ⟨clearById st.rows row.id, st.fs.erase full, false⟩
          else { st with rows := clearById st.rows row.id }
      else st

/-- `cleanupPayments` (variant A, src lines 64-86). -/
def cleanupPayments (rootDir : String) (now : Int) (parse : String → Option Int)
    (unlinkFails : String → Bool) (s : Store) (fs : Fs) : Store × Fs :=
  let st := (itemsA s).foldl (stepA rootDir now parse unlinkFails) ⟨s.rows, fs, false⟩
  ({ s with rows := st.rows }, st.fs)

/-! ## Retention sweep, variant B (`cleanupOldPayments`, src lines 298-339) -/

/-- The snapshot taken by `SELECT id, payment_file, paid_at FROM invoices
WHERE payment_file IS NOT NULL AND paid_at IS NOT NULL`. -/
def itemsB (s : Store) : List Invoice :=
  s.rows.filter fun r => r.payment_file.isSome && r.paid_at.isSome

/-- One iteration of variant B's `rows.forEach(row => ...)`:
`if (!paidAtTime) return` skips `NaN` *and* the timestamp `0` (both are
falsy); for an expired row `fs.unlink` is issued fire-and-forget (its
failure is only logged) and the `payment_file = NULL` update runs
unconditionally. -/
def stepB (rootDir : String) (now : Int) (parse : String → Option Int)
    (unlinkFails : String → Bool) (st : List Invoice × Fs) (row : Invoice) :
    List Invoice × Fs :=
  match row.paid_at with
  | none => st
  | some pa =>
    match parse pa with
    | none => st
    | some t =>
      if t = 0 then st
      else if maxAgeMs < now - t then
        let fs1 := match row.payment_file with
          | none => st.2
          | some pf =>
            let full := fullPath rootDir pf
            if unlinkFails full then st.2 else st.2.erase full
        (clearById st.1 row.id, fs1)
      else st

/-- `cleanupOldPayments` (variant B, src lines 298-339). -/
def cleanupOldPayments (rootDir : String) (now : Int) (parse : String → Option Int)
    (unlinkFails : String → Bool) (s : Store) (fs : Fs) : Store × Fs :=
  let st := (itemsB s).foldl (stepB rootDir now parse unlinkFails) (s.rows, fs)
  ({ s with rows := st.1 }, st.2)

/-! ## Record store operations -/

/-- The request body of `POST /api/invoice/create`; `need_new_request`
is the result of the JS boolean coercion `need_new_request ? 1 : 0`. -/
structure CreateBody where
  supplier : Option String := none
  organization_type : Option String := none
  amount : Option Int := none
  need_new_request : Bool := false
  arrival_date : Option String := none
deriving DecidableEq

/-- `POST /api/invoice/create`, variant A (src lines 112-140): no
validation, `arrival_date || today` falsy fallback, responds
`{success:true}` without the new id. -/
def createA (nowIso today : String) (b : CreateBody) (s : Store) :
    Except ApiErr Unit × Store :=
  let arrival := match b.arrival_date with
    | none => today
    | some a => if a = "" then today else a
  let row : Invoice :=
    { id := s.nextId, supplier := b.supplier,
      organization_type := b.organization_type, amount := b.amount,
      created_at := some nowIso, arrival_date := some arrival,
      need_new_request := b.need_new_request, paid := false,
      payment_file := none, paid_at := none }
  (.ok (), ⟨s.rows ++ [row], s.nextId + 1⟩)

/-- `POST /api/invoice/create`, variant B (src lines 347-371):
`if (!supplier || !organization_type || !amount)` → 400, else insert
(the variant-B schema has no `arrival_date` column) and respond with
`this.lastID`. -/
def createB (nowIso : String) (b : CreateBody) (s : Store) :
    Except ApiErr Nat × Store :=
  if strFalsy b.supplier || strFalsy b.organization_type || intFalsy b.amount then
    (.error .validation, s)
  else
    let row : Invoice :=
      { id := s.nextId, supplier := b.supplier,
        organization_type := b.organization_type, amount := b.amount,
        created_at := some nowIso, arrival_date := none,
        need_new_request := b.need_new_request, paid := false,
        payment_file := none, paid_at := none }
    (.ok s.nextId, ⟨s.rows ++ [row], s.nextId + 1⟩)

/-- `SELECT * FROM invoices WHERE paid = 0 ORDER BY id DESC` — identical
in both variants (`GET /api/invoice/list`). -/
def listUnpaid (s : Store) : List Invoice :=
  (s.rows.filter fun r => !r.paid).insertionSort fun a b => b.id ≤ a.id

/-- `UPDATE invoices SET need_new_request = ? WHERE id = ?` on the table. -/
def setFlagById (rows : List Invoice) (i : Nat) (flag : Bool) : List Invoice :=
  rows.map fun r => if r.id = i then { r with need_new_request := flag } else r

/-- `POST /api/invoice/update/:id`, variant A (src lines 167-174): no
not-found check, always `{success:true}`. -/
def updateFlagA (i : Nat) (flag : Bool) (s : Store) : Except ApiErr Unit × Store :=
  (.ok (), { s with rows := setFlagById s.rows i flag })

/-- `POST /api/invoice/update/:id`, variant B (src lines 413-432):
`this.changes === 0` → 404. -/
def updateFlagB (i : Nat) (flag : Bool) (s : Store) : Except ApiErr Unit × Store :=
  let s1 : Store := { s with rows := setFlagById s.rows i flag }
  if s.rows.any (fun r => r.id = i) then (.ok (), s1) else (.error .notFound, s1)

/-- `UPDATE invoices SET paid=1, paid_at=? WHERE id=?` on the table. -/
def markRowPaid (rows : List Invoice) (i : Nat) (nowIso : String) : List Invoice :=
  rows.map fun r =>
    if r.id = i then { r with paid := true, paid_at := some nowIso } else r

/-- `POST /api/invoice/mark-paid/:id`, variant A (src lines 177-186): no
not-found check. -/
def markPaidA (nowIso : String) (i : Nat) (s : Store) : Except ApiErr String × Store :=
  (.ok nowIso, { s with rows := markRowPaid s.rows i nowIso })

/-- `POST /api/invoice/mark-paid/:id`, variant B (src lines 466-484):
`this.changes === 0` → 404. -/
def markPaidB (nowIso : String) (i : Nat) (s : Store) : Except ApiErr String × Store :=
  let s1 : Store := { s with rows := markRowPaid s.rows i nowIso }
  if s.rows.any (fun r => r.id = i) then (.ok nowIso, s1) else (.error .notFound, s1)

/-- The MIME type accepted by both variants' multer `fileFilter`. -/
def pdfMime : String := "application/pdf"

/-- Multer's generated file name `invoice_<id>_<Date.now()>.pdf`. -/
def uploadFileName (i : Nat) (nowMs : Int) : String :=
  "invoice_" ++ toString i ++ "_" ++ toString nowMs ++ ".pdf"

/-- Response of a successful payment upload. -/
structure UploadResp where
  paid_at : String
  payment_file : String
deriving DecidableEq

/-- `UPDATE invoices SET paid=1, paid_at=?, payment_file=? WHERE id=?`. -/
def setRowPaidFile (rows : List Invoice) (i : Nat) (nowIso rel : String) :
    List Invoice :=
  rows.map fun r =>
    if r.id = i then
      { r with paid := true, paid_at := some nowIso, payment_file := some rel }
    else r

/-- `POST /api/invoice/upload-payment/:id`, variant A (src lines 189-202).
Multer's `fileFilter` rejects a non-PDF before anything is written; with
no file at all, `req.file.filename` throws (500).  On the PDF path multer
stores the file first, then the handler updates the row (no not-found
check). -/
def uploadPaymentA (rootDir nowIso : String) (nowMs : Int) (i : Nat)
    (filePresent : Bool) (mime : String) (s : Store) (fs : Fs) :
    Except ApiErr UploadResp × Store × Fs :=
  if filePresent then
    if mime = pdfMime then
      let rel := "/payments/" ++ uploadFileName i nowMs
      (.ok ⟨nowIso, rel⟩,
        { s with rows := setRowPaidFile s.rows i nowIso rel },
        fs ++ [fullPath rootDir rel])
    else (.error .validation, s, fs)
  else (.error .serverError, s, fs)

/-- `POST /api/invoice/upload-payment/:id`, variant B (src lines 435-463).
As variant A, but a missing file is answered with 400 and
`this.changes === 0` with 404 (the file written by multer stays on disk
in the 404 case). -/
def uploadPaymentB (rootDir nowIso : String) (nowMs : Int) (i : Nat)
    (filePresent : Bool) (mime : String) (s : Store) (fs : Fs) :
    Except ApiErr UploadResp × Store × Fs :=
  if filePresent then
    if mime = pdfMime then
      let rel := "/payments/" ++ uploadFileName i nowMs
      let fs1 := fs ++ [fullPath rootDir rel]
      if s.rows.any (fun r => r.id = i) then
        (.ok ⟨nowIso, rel⟩,
          { s with rows := setRowPaidFile s.rows i nowIso rel }, fs1)
      else (.error .notFound, s, fs1)
    else (.error .validation, s, fs)
  else (.error .validation, s, fs)

/-! ## Payment history -/

/-- Variant A's history filter
`paid = 1 AND paid_at >= datetime('now','-10 days')`: SQLite compares the
TEXT column with the formatted threshold string byte-wise (BINARY
collation); on the ASCII strings involved this is exactly Lean's `<` on
`String`.  A NULL `paid_at` compares to NULL, i.e. the row is dropped. -/
def histPredA (threshold : String) (r : Invoice) : Bool :=
  r.paid && (match r.paid_at with
    | none => false
    | some pa => !(strLtb pa threshold))

/-- Sort key for variant A's `ORDER BY paid_at DESC` (TEXT ordering). -/
def histKeyA (r : Invoice) : String := r.paid_at.getD ""

/-- `GET /api/invoice/history`, variant A (src lines 151-164): sweep,
then the string-compared 10-day window, newest `paid_at` string first.
`threshold` stands for the string SQLite renders for
`datetime('now','-10 days')` (format `YYYY-MM-DD HH:MM:SS`). -/
def listHistoryA (rootDir : String) (now : Int) (threshold : String)
    (parse : String → Option Int) (unlinkFails : String → Bool)
    (s : Store) (fs : Fs) : List Invoice × Store × Fs :=
  let c := cleanupPayments rootDir now parse unlinkFails s fs
  ((c.1.rows.filter (histPredA threshold)).insertionSort
      (fun a b => strLtb (histKeyA a) (histKeyA b) = false),
    c.1, c.2)

/-- Time of payment used by variant B's history query: `datetime(paid_at)`
compared as a timestamp (rows failing the filter never consult the
default). -/
def histTimeB (parse : String → Option Int) (r : Invoice) : Int :=
  (r.paid_at.bind parse).getD 0

/-- Variant B's history filter `paid = 1 AND paid_at IS NOT NULL AND
datetime(paid_at) >= datetime('now','-10 days')`: the stored timestamp is
at least `now` minus the window (unconvertible strings yield NULL and are
dropped). -/
def histPredB (now : Int) (parse : String → Option Int) (r : Invoice) : Bool :=
  r.paid && (match r.paid_at with
    | none => false
    | some pa => match parse pa with
      | none => false
      | some t => decide (now - t ≤ maxAgeMs))

/-- `GET /api/invoice/history`, variant B (src lines 389-410): sweep,
then the timestamp-compared 10-day window, `ORDER BY datetime(paid_at)
DESC`. -/
def listHistoryB (rootDir : String) (now : Int) (parse : String → Option Int)
    (unlinkFails : String → Bool) (s : Store) (fs : Fs) :
    List Invoice × Store × Fs :=
  let c := cleanupOldPayments rootDir now parse unlinkFails s fs
  ((c.1.rows.filter (histPredB now parse)).insertionSort
      (fun a b => histTimeB parse b ≤ histTimeB parse a),
    c.1, c.2)

/-! ## Process start -/

/-- Variant A's startup (src lines 209-212): `initDB().then(listen)` only
creates the table if absent — **no** sweep runs here. -/
def startupA (s : Store) (fs : Fs) : Store × Fs := (s, fs)

/-- Variant B's startup (src lines 341-343): `cleanupOldPayments()` is
called once at module load. -/
def startupB (rootDir : String) (now : Int) (parse : String → Option Int)
    (unlinkFails : String → Bool) (s : Store) (fs : Fs) : Store × Fs :=
  cleanupOldPayments rootDir now parse unlinkFails s fs

/-! ## Sweep trigger conditions -/

/-- The exact condition under which variant A's sweep body reaches the
`db.run(UPDATE ... SET payment_file=NULL ...)` for a row (given that
`fs.unlinkSync` does not throw): truthy `paid_at`, parseable date,
elapsed time strictly over the window, and a non-null `payment_file`. -/
def condA (now : Int) (parse : String → Option Int) (it : Invoice) : Bool :=
  it.payment_file.isSome &&
    (match it.paid_at with
     | none => false
     | some pa =>
       !(pa == "") &&
         (match parse pa with
          | none => false
          | some t => decide (maxAgeMs < now - t)))

/-- The exact condition under which variant B's sweep body runs the
`payment_file = NULL` update for a row: `paid_at` parses to a truthy
(nonzero) timestamp and the elapsed time strictly exceeds the window.
Unlike variant A this does not look at the file system at all. -/
def condB (now : Int) (parse : String → Option Int) (it : Invoice) : Bool :=
  match it.paid_at with
  | none => false
  | some pa =>
    match parse pa with
    | none => false
    | some t => !(t == 0) && decide (maxAgeMs < now - t)

/-! ## Reachability of store states -/

/-- One mutating server operation, of either variant, applied to the
store (the file system, clock and parse inputs are arbitrary). -/
inductive Step : Store → Store → Prop
  | createA (nowIso today : String) (b : CreateBody) (s : Store) :
      Step s (createA nowIso today b s).2
  | createB (nowIso : String) (b : CreateBody) (s : Store) :
      Step s (createB nowIso b s).2
  | updateFlagA (i : Nat) (flag : Bool) (s : Store) :
      Step s (updateFlagA i flag s).2
  | updateFlagB (i : Nat) (flag : Bool) (s : Store) :
      Step s (updateFlagB i flag s).2
  | markPaidA (nowIso : String) (i : Nat) (s : Store) :
      Step s (markPaidA nowIso i s).2
  | markPaidB (nowIso : String) (i : Nat) (s : Store) :
      Step s (markPaidB nowIso i s).2
  | uploadPaymentA (rootDir nowIso : String) (nowMs : Int) (i : Nat)
      (filePresent : Bool) (mime : String) (s : Store) (fs : Fs) :
      Step s (uploadPaymentA rootDir nowIso nowMs i filePresent mime s fs).2.1
  | uploadPaymentB (rootDir nowIso : String) (nowMs : Int) (i : Nat)
      (filePresent : Bool) (mime : String) (s : Store) (fs : Fs) :
      Step s (uploadPaymentB rootDir nowIso nowMs i filePresent mime s fs).2.1
  | cleanupPayments (rootDir : String) (now : Int) (parse : String → Option Int)
      (ufail : String → Bool) (s : Store) (fs : Fs) :
      Step s (cleanupPayments rootDir now parse ufail s fs).1
  | cleanupOldPayments (rootDir : String) (now : Int) (parse : String → Option Int)
      (ufail : String → Bool) (s : Store) (fs : Fs) :
      Step s (cleanupOldPayments rootDir now parse ufail s fs).1
  | listHistoryA (rootDir : String) (now : Int) (threshold : String)
      (parse : String → Option Int) (ufail : String → Bool) (s : Store) (fs : Fs) :
      Step s (listHistoryA rootDir now threshold parse ufail s fs).2.1
  | listHistoryB (rootDir : String) (now : Int) (parse : String → Option Int)
      (ufail : String → Bool) (s : Store) (fs : Fs) :
      Step s (listHistoryB rootDir now parse ufail s fs).2.1

/-- The store of a freshly created database: empty table, AUTOINCREMENT
counter at 1. -/
def initialStore : Store := ⟨[], 1⟩

/-- Store states reachable from a fresh database through the server API. -/
def Reachable (s : Store) : Prop :=
  Relation.ReflTransGen Step initialStore s

/-- The §3 invariant: an unpaid invoice has no paid timestamp and no
payment file. -/
def UnpaidClean (s : Store) : Prop :=
  ∀ inv ∈ s.rows, inv.paid = false →
    inv.paid_at = none ∧ inv.payment_file = none

/-- A sweep output row is the corresponding input row, possibly with its
`payment_file` cleared. -/
def RowRel (r r2 : Invoice) : Prop := r2 = r ∨ r2 = clearPF r

/-- Pointwise preservation of `id`, `paid` and `paid_at` between two row
lists. -/
def PaidDataPreserved (rows rows2 : List Invoice) : Prop :=
  List.Forall₂
    (fun r r2 => r2.id = r.id ∧ r2.paid = r.paid ∧ r2.paid_at = r.paid_at)
    rows rows2

/-! ## Basic lemmas about the row updates -/

theorem clearPF_clearPF (r : Invoice) : clearPF (clearPF r) = clearPF r := rfl

theorem RowRel.refl {r : Invoice} : RowRel r r := Or.inl (Eq.refl r)

theorem RowRel.trans {r1 r2 r3 : Invoice} (h : RowRel r1 r2) (h2 : RowRel r2 r3) :
    RowRel r1 r3 := by
  rcases h with h | h <;> rcases h2 with h2 | h2 <;> subst h <;> subst h2 <;>
    simp [RowRel, clearPF_clearPF]

theorem RowRel.fields {r r2 : Invoice} (h : RowRel r r2) :
    r2.id = r.id ∧ r2.paid = r.paid ∧ r2.paid_at = r.paid_at ∧
      r2.need_new_request = r.need_new_request ∧
      (r2.payment_file = r.payment_file ∨ r2.payment_file = none) := by
  rcases h with h | h <;> subst h <;> simp [clearPF]

theorem forall₂_rowRel_refl (l : List Invoice) : List.Forall₂ RowRel l l :=
  List.forall₂_same.mpr fun _ _ => RowRel.refl

theorem forall₂_rowRel_trans {a b c : List Invoice}
    (h : List.Forall₂ RowRel a b) (h2 : List.Forall₂ RowRel b c) :
    List.Forall₂ RowRel a c := by
  induction h generalizing c with
  | nil => cases h2; exact .nil
  | cons hr _ ih =>
    cases h2 with
    | cons hr2 htl2 => exact .cons (hr.trans hr2) (ih htl2)

theorem clearById_forall₂ (rows : List Invoice) (i : Nat) :
    List.Forall₂ RowRel rows (clearById rows i) := by
  induction rows with
  | nil => exact .nil
  | cons r rs ih =>
    refine .cons ?_ ih
    by_cases h : r.id = i <;> simp [clearById, h, RowRel]

/-! ## Shape of the sweeps -/

theorem stepA_rows_shape (rootDir : String) (now : Int)
    (parse : String → Option Int) (ufail : String → Bool)
    (st : SweepA) (row : Invoice) :
    (stepA rootDir now parse ufail st row).rows = st.rows ∨
      (stepA rootDir now parse ufail st row).rows = clearById st.rows row.id := by
  simp only [stepA]
  repeat' split
  all_goals simp

theorem stepA_fs_subset (rootDir : String) (now : Int)
    (parse : String → Option Int) (ufail : String → Bool)
    (st : SweepA) (row : Invoice) :
    (stepA rootDir now parse ufail st row).fs ⊆ st.fs := by
  simp only [stepA]
  repeat' split
  all_goals first
    | exact List.Subset.refl _
    | exact List.erase_subset _ _

theorem stepB_rows_shape (rootDir : String) (now : Int)
    (parse : String → Option Int) (ufail : String → Bool)
    (st : List Invoice × Fs) (row : Invoice) :
    (stepB rootDir now parse ufail st row).1 = st.1 ∨
      (stepB rootDir now parse ufail st row).1 = clearById st.1 row.id := by
  simp only [stepB]
  repeat' split
  all_goals simp

theorem stepB_fs_subset (rootDir : String) (now : Int)
    (parse : String → Option Int) (ufail : String → Bool)
    (st : List Invoice × Fs) (row : Invoice) :
    (stepB rootDir now parse ufail st row).2 ⊆ st.2 := by
  simp only [stepB]
  repeat' split
  all_goals first
    | exact List.Subset.refl _
    | exact List.erase_subset _ _

theorem foldA_rows_shape (rootDir : String) (now : Int)
    (parse : String → Option Int) (ufail : String → Bool)
    (items : List Invoice) (st : SweepA) :
    List.Forall₂ RowRel st.rows
      ((items.foldl (stepA rootDir now parse ufail) st).rows) := by
  induction items generalizing st with
  | nil => exact forall₂_rowRel_refl _
  | cons it its ih =>
    refine forall₂_rowRel_trans ?_ (ih (stepA rootDir now parse ufail st it))
    rcases stepA_rows_shape rootDir now parse ufail st it with h | h <;> rw [h]
    · exact forall₂_rowRel_refl _
    · exact clearById_forall₂ _ _

theorem foldB_rows_shape (rootDir : String) (now : Int)
    (parse : String → Option Int) (ufail : String → Bool)
    (items : List Invoice) (st : List Invoice × Fs) :
    List.Forall₂ RowRel st.1
      ((items.foldl (stepB rootDir now parse ufail) st).1) := by
  induction items generalizing st with
  | nil => exact forall₂_rowRel_refl _
  | cons it its ih =>
    refine forall₂_rowRel_trans ?_ (ih (stepB rootDir now parse ufail st it))
    rcases stepB_rows_shape rootDir now parse ufail st it with h | h <;> rw [h]
    · exact forall₂_rowRel_refl _
    · exact clearById_forall₂ _ _

theorem foldA_fs_subset (rootDir : String) (now : Int)
    (parse : String → Option Int) (ufail : String → Bool)
    (items : List Invoice) (st : SweepA) :
    (items.foldl (stepA rootDir now parse ufail) st).fs ⊆ st.fs := by
  induction items generalizing st with
  | nil => exact List.Subset.refl _
  | cons it its ih =>
    exact (ih (stepA rootDir now parse ufail st it)).trans
      (stepA_fs_subset rootDir now parse ufail st it)

theorem foldB_fs_subset (rootDir : String) (now : Int)
    (parse : String → Option Int) (ufail : String → Bool)
    (items : List Invoice) (st : List Invoice × Fs) :
    (items.foldl (stepB rootDir now parse ufail) st).2 ⊆ st.2 := by
  induction items generalizing st with
  | nil => exact List.Subset.refl _
  | cons it its ih =>
    exact (ih (stepB rootDir now parse ufail st it)).trans
      (stepB_fs_subset rootDir now parse ufail st it)

/-- After either sweep, each row of the store is the original row with
`payment_file` possibly cleared, in place. -/
theorem cleanupPayments_shape (rootDir : String) (now : Int)
    (parse : String → Option Int) (ufail : String → Bool) (s : Store) (fs : Fs) :
    List.Forall₂ RowRel s.rows (cleanupPayments rootDir now parse ufail s fs).1.rows :=
  foldA_rows_shape rootDir now parse ufail (itemsA s) ⟨s.rows, fs, false⟩

theorem cleanupOldPayments_shape (rootDir : String) (now : Int)
    (parse : String → Option Int) (ufail : String → Bool) (s : Store) (fs : Fs) :
    List.Forall₂ RowRel s.rows (cleanupOldPayments rootDir now parse ufail s fs).1.rows :=
  foldB_rows_shape rootDir now parse ufail (itemsB s) (s.rows, fs)

theorem cleanupPayments_fs_subset (rootDir : String) (now : Int)
    (parse : String → Option Int) (ufail : String → Bool) (s : Store) (fs : Fs) :
    (cleanupPayments rootDir now parse ufail s fs).2 ⊆ fs :=
  foldA_fs_subset rootDir now parse ufail (itemsA s) ⟨s.rows, fs, false⟩

theorem cleanupOldPayments_fs_subset (rootDir : String) (now : Int)
    (parse : String → Option Int) (ufail : String → Bool) (s : Store) (fs : Fs) :
    (cleanupOldPayments rootDir now parse ufail s fs).2 ⊆ fs :=
  foldB_fs_subset rootDir now parse ufail (itemsB s) (s.rows, fs)

/-! ## Pointwise behaviour of the sweeps -/

theorem clearById_getElem? (rows : List Invoice) (i k : Nat) :
    (clearById rows i)[k]? =
      rows[k]?.map fun r => if r.id = i then clearPF r else r := by
  simp [clearById, List.getElem?_map]

section SweepLemmas

variable (rootDir : String) (now : Int) (parse : String → Option Int)
  (ufail : String → Bool)

/-- Full case analysis of one non-aborted iteration of variant A's loop. -/
theorem stepA_spec (st : SweepA) (row : Invoice) (hab : st.aborted = false) :
    (condA now parse row = false ∧ stepA rootDir now parse ufail st row = st) ∨
    (condA now parse row = true ∧ ∃ pf, row.payment_file = some pf ∧
      ((fullPath rootDir pf ∈ st.fs ∧ ufail (fullPath rootDir pf) = true ∧
          stepA rootDir now parse ufail st row = { st with aborted := true }) ∨
       (fullPath rootDir pf ∈ st.fs ∧ ufail (fullPath rootDir pf) = false ∧
          stepA rootDir now parse ufail st row =
            ⟨clearById st.rows row.id, st.fs.erase (fullPath rootDir pf), false⟩) ∨
       (fullPath rootDir pf ∉ st.fs ∧
          stepA rootDir now parse ufail st row =
            { st with rows := clearById st.rows row.id }))) := by
  rcases hpa : row.paid_at with _ | pa
  · exact Or.inl ⟨by simp [condA, hpa], by simp [stepA, hab, hpa]⟩
  · by_cases hpe : pa = ""
    · exact Or.inl ⟨by simp [condA, hpa, hpe], by simp [stepA, hab, hpa, hpe]⟩
    · rcases hp : parse pa with _ | t
      · exact Or.inl ⟨by simp [condA, hpa, hpe, hp], by simp [stepA, hab, hpa, hpe, hp]⟩
      · by_cases hex : maxAgeMs < now - t
        · rcases hpf : row.payment_file with _ | pf
          · exact Or.inl ⟨by simp [condA, hpa, hpe, hp, hpf],
              by simp [stepA, hab, hpa, hpe, hp, hex, hpf]⟩
          · refine Or.inr ⟨by simp [condA, hpa, hpe, hp, hex, hpf], pf, rfl, ?_⟩
            by_cases hin : fullPath rootDir pf ∈ st.fs
            · by_cases hu : ufail (fullPath rootDir pf) = true
              · exact Or.inl ⟨hin, hu,
                  by simp [stepA, hab, hpa, hpe, hp, hex, hpf, hin, hu]⟩
              · refine Or.inr (Or.inl ⟨hin, by simpa using hu, ?_⟩)
                simp [stepA, hab, hpa, hpe, hp, hex, hpf, hin, hu]
            · exact Or.inr (Or.inr ⟨hin,
                by simp [stepA, hab, hpa, hpe, hp, hex, hpf, hin]⟩)
        · exact Or.inl ⟨by simp [condA, hpa, hpe, hp, hex],
            by simp [stepA, hab, hpa, hpe, hp, hex]⟩

theorem stepA_of_aborted (st : SweepA) (row : Invoice) (hab : st.aborted = true) :
    stepA rootDir now parse ufail st row = st := by
  simp [stepA, hab]

theorem foldA_of_aborted (items : List Invoice) (st : SweepA)
    (hab : st.aborted = true) :
    items.foldl (stepA rootDir now parse ufail) st = st := by
  induction items with
  | nil => rfl
  | cons it its ih => simp only [List.foldl_cons, stepA_of_aborted _ _ _ _ _ _ hab, ih]

/-- A row already cleared in place stays cleared for the rest of the pass. -/
theorem foldA_stable_clear (items : List Invoice) (st : SweepA) (k : Nat)
    (r : Invoice) (h : st.rows[k]? = some (clearPF r)) :
    ((items.foldl (stepA rootDir now parse ufail) st).rows)[k]? =
      some (clearPF r) := by
  induction items generalizing st with
  | nil => simpa using h
  | cons it its ih =>
    simp only [List.foldl_cons]
    refine ih (stepA rootDir now parse ufail st it) ?_
    rcases stepA_rows_shape rootDir now parse ufail st it with hs | hs <;> rw [hs]
    · exact h
    · simp [clearById_getElem?, h, clearPF, clearPF_clearPF]

/-- If some snapshot row with the same id satisfies the cleanup condition
and no deletion failure can abort the pass, the row at position `k` comes
out with `payment_file` cleared. -/
theorem foldA_clean (items : List Invoice) (st : SweepA) (fs0 : Fs) (k : Nat)
    (r : Invoice) (it0 : Invoice)
    (hab : st.aborted = false) (hsub : st.fs ⊆ fs0)
    (hna : ∀ it ∈ items, ∀ pf, it.payment_file = some pf →
      condA now parse it = true →
      ufail (fullPath rootDir pf) = false ∨ fullPath rootDir pf ∉ fs0)
    (hit0 : it0 ∈ items) (hcond : condA now parse it0 = true)
    (hk : st.rows[k]? = some r) (hid : r.id = it0.id) :
    ((items.foldl (stepA rootDir now parse ufail) st).rows)[k]? =
      some (clearPF r) := by
  induction items generalizing st with
  | nil => cases hit0
  | cons it its ih =>
    simp only [List.foldl_cons]
    rcases stepA_spec rootDir now parse ufail st it hab with
      ⟨hcf, hse⟩ | ⟨hct, pf, hpf, hcases⟩
    · rw [hse]
      rcases List.mem_cons.mp hit0 with rfl | hmem
      · rw [hcf] at hcond; cases hcond
      · exact ih st hab hsub
          (fun it2 h2 => hna it2 (List.mem_cons_of_mem _ h2)) hmem hk
    · by_cases hidm : r.id = it.id
      · -- row `k` is cleared by this very iteration (unless it aborts,
        -- which `hna` rules out)
        rcases hcases with ⟨hin, hu, hse⟩ | ⟨_, _, hse⟩ | ⟨_, hse⟩
        · rcases hna it (List.mem_cons_self _ _) pf hpf hct with h | h
          · rw [hu] at h; cases h
          · exact absurd (hsub hin) h
        · rw [hse]
          exact foldA_stable_clear rootDir now parse ufail its _ k r
            (by simp [clearById_getElem?, hk, hidm])
        · rw [hse]
          exact foldA_stable_clear rootDir now parse ufail its _ k r
            (by simp [clearById_getElem?, hk, hidm])
      · -- row `k` is untouched by this iteration
        have hit0m : it0 ∈ its := by
          rcases List.mem_cons.mp hit0 with rfl | hmem
          · exact absurd hid hidm
          · exact hmem
        have hna2 : ∀ it2 ∈ its, ∀ pf2, it2.payment_file = some pf2 →
            condA now parse it2 = true →
            ufail (fullPath rootDir pf2) = false ∨ fullPath rootDir pf2 ∉ fs0 :=
          fun it2 h2 => hna it2 (List.mem_cons_of_mem _ h2)
        rcases hcases with ⟨hin, hu, hse⟩ | ⟨_, _, hse⟩ | ⟨_, hse⟩
        · rcases hna it (List.mem_cons_self _ _) pf hpf hct with h | h
          · rw [hu] at h; cases h
          · exact absurd (hsub hin) h
        · rw [hse]
          exact ih _ rfl ((List.erase_subset _ _).trans hsub) hna2 hit0m
            (by simp [clearById_getElem?, hk, hidm])
        · rw [hse]
          exact ih _ hab hsub hna2 hit0m
            (by simp [clearById_getElem?, hk, hidm])

/-- A row no snapshot entry of matching id qualifies for is left exactly
as it was (whether or not the pass aborts half-way). -/
theorem foldA_untouched (items : List Invoice) (st : SweepA) (k : Nat)
    (r : Invoice) (hk : st.rows[k]? = some r)
    (hno : ∀ it ∈ items, it.id = r.id → condA now parse it = false) :
    ((items.foldl (stepA rootDir now parse ufail) st).rows)[k]? = some r := by
  induction items generalizing st with
  | nil => simpa using hk
  | cons it its ih =>
    simp only [List.foldl_cons]
    by_cases hab : st.aborted = false
    · rcases stepA_spec rootDir now parse ufail st it hab with
        ⟨hcf, hse⟩ | ⟨hct, pf, hpf, hcases⟩
      · rw [hse]
        exact ih st hk (fun it2 h2 => hno it2 (List.mem_cons_of_mem _ h2))
      · have hne : ¬ r.id = it.id := by
          intro h
          rw [hno it (List.mem_cons_self _ _) h.symm] at hct
          cases hct
        rcases hcases with ⟨_, _, hse⟩ | ⟨_, _, hse⟩ | ⟨_, hse⟩ <;> rw [hse]
        · rw [foldA_of_aborted rootDir now parse ufail its _ rfl]
          simpa using hk
        · exact ih _ (by simp [clearById_getElem?, hk, hne])
            (fun it2 h2 => hno it2 (List.mem_cons_of_mem _ h2))
        · exact ih _ (by simp [clearById_getElem?, hk, hne])
            (fun it2 h2 => hno it2 (List.mem_cons_of_mem _ h2))
    · rw [stepA_of_aborted rootDir now parse ufail st it (by simpa using hab),
        foldA_of_aborted rootDir now parse ufail its st (by simpa using hab)]
      simpa using hk

/-- The file of a qualifying snapshot row is gone after the pass, provided
no deletion failure aborts the pass first. -/
theorem foldA_file_deleted (items : List Invoice) (st : SweepA) (fs0 : Fs)
    (it0 : Invoice) (pf : String)
    (hab : st.aborted = false) (hsub : st.fs ⊆ fs0) (hnd : st.fs.Nodup)
    (hna : ∀ it ∈ items, ∀ pf2, it.payment_file = some pf2 →
      condA now parse it = true →
      ufail (fullPath rootDir pf2) = false ∨ fullPath rootDir pf2 ∉ fs0)
    (hit0 : it0 ∈ items) (hcond : condA now parse it0 = true)
    (hpf : it0.payment_file = some pf) :
    fullPath rootDir pf ∉ (items.foldl (stepA rootDir now parse ufail) st).fs := by
  induction items generalizing st with
  | nil => cases hit0
  | cons it its ih =>
    simp only [List.foldl_cons]
    rcases stepA_spec rootDir now parse ufail st it hab with
      ⟨hcf, hse⟩ | ⟨hct, pf2, hpf2, hcases⟩
    · rw [hse]
      rcases List.mem_cons.mp hit0 with rfl | hmem
      · rw [hcf] at hcond; cases hcond
      · exact ih st hab hsub hnd (fun it2 h2 => hna it2 (List.mem_cons_of_mem _ h2)) hmem
    · rcases hcases with ⟨hin, hu, hse⟩ | ⟨hin, hu, hse⟩ | ⟨hin, hse⟩
      · rcases hna it (List.mem_cons_self _ _) pf2 hpf2 hct with h | h
        · rw [hu] at h; cases h
        · exact absurd (hsub hin) h
      · rw [hse]
        rcases List.mem_cons.mp hit0 with rfl | hmem
        · rw [hpf] at hpf2
          cases hpf2
          intro hmemfs
          have h2 := foldA_fs_subset rootDir now parse ufail its _ hmemfs
          rw [hnd.mem_erase_iff] at h2
          exact h2.1 rfl
        · exact ih _ rfl ((List.erase_subset _ _).trans hsub) (hnd.erase _)
            (fun it2 h2 => hna it2 (List.mem_cons_of_mem _ h2)) hmem
      · rw [hse]
        rcases List.mem_cons.mp hit0 with rfl | hmem
        · rw [hpf] at hpf2
          cases hpf2
          intro hmemfs
          exact hin (foldA_fs_subset rootDir now parse ufail its
            ⟨clearById st.rows it0.id, st.fs, st.aborted⟩ hmemfs)
        · exact ih _ hab hsub hnd
            (fun it2 h2 => hna it2 (List.mem_cons_of_mem _ h2)) hmem

/-- A file no *qualifying* snapshot row refers to survives the pass. -/
theorem foldA_file_kept (items : List Invoice) (st : SweepA) (p : String)
    (hp : p ∈ st.fs)
    (hno : ∀ it ∈ items, condA now parse it = true → ∀ pf,
      it.payment_file = some pf → fullPath rootDir pf ≠ p) :
    p ∈ (items.foldl (stepA rootDir now parse ufail) st).fs := by
  induction items generalizing st with
  | nil => simpa using hp
  | cons it its ih =>
    simp only [List.foldl_cons]
    by_cases hab : st.aborted = false
    · rcases stepA_spec rootDir now parse ufail st it hab with
        ⟨hcf, hse⟩ | ⟨hct, pf, hpf, hcases⟩
      · rw [hse]
        exact ih st hp (fun it2 h2 => hno it2 (List.mem_cons_of_mem _ h2))
      · rcases hcases with ⟨_, _, hse⟩ | ⟨_, _, hse⟩ | ⟨_, hse⟩ <;> rw [hse]
        · rw [foldA_of_aborted rootDir now parse ufail its _ rfl]
          simpa using hp
        · refine ih _ ?_ (fun it2 h2 => hno it2 (List.mem_cons_of_mem _ h2))
          exact (List.mem_erase_of_ne
            (hno it (List.mem_cons_self _ _) hct pf hpf).symm).mpr hp
        · exact ih _ hp (fun it2 h2 => hno it2 (List.mem_cons_of_mem _ h2))
    · rw [stepA_of_aborted rootDir now parse ufail st it (by simpa using hab),
        foldA_of_aborted rootDir now parse ufail its st (by simpa using hab)]
      simpa using hp

/-- Full case analysis of one iteration of variant B's loop. -/
theorem stepB_spec (st : List Invoice × Fs) (row : Invoice) :
    (condB now parse row = false ∧ stepB rootDir now parse ufail st row = st) ∨
    (condB now parse row = true ∧
      (stepB rootDir now parse ufail st row).1 = clearById st.1 row.id ∧
      ((row.payment_file = none ∧
          (stepB rootDir now parse ufail st row).2 = st.2) ∨
       (∃ pf, row.payment_file = some pf ∧
         ((ufail (fullPath rootDir pf) = true ∧
             (stepB rootDir now parse ufail st row).2 = st.2) ∨
          (ufail (fullPath rootDir pf) = false ∧
             (stepB rootDir now parse ufail st row).2 =
               st.2.erase (fullPath rootDir pf)))))) := by
  rcases hpa : row.paid_at with _ | pa
  · exact Or.inl ⟨by simp [condB, hpa], by simp [stepB, hpa]⟩
  · rcases hp : parse pa with _ | t
    · exact Or.inl ⟨by simp [condB, hpa, hp], by simp [stepB, hpa, hp]⟩
    · by_cases ht : t = 0
      · exact Or.inl ⟨by simp [condB, hpa, hp, ht], by simp [stepB, hpa, hp, ht]⟩
      · by_cases hex : maxAgeMs < now - t
        · refine Or.inr ⟨by simp [condB, hpa, hp, ht, hex], ?_, ?_⟩
          · rcases hpf : row.payment_file with _ | pf <;>
              simp [stepB, hpa, hp, ht, hex, hpf]
          · rcases hpf : row.payment_file with _ | pf
            · exact Or.inl ⟨rfl, by simp [stepB, hpa, hp, ht, hex, hpf]⟩
            · refine Or.inr ⟨pf, rfl, ?_⟩
              by_cases hu : ufail (fullPath rootDir pf) = true
              · exact Or.inl ⟨hu, by simp [stepB, hpa, hp, ht, hex, hpf, hu]⟩
              · exact Or.inr ⟨by simpa using hu,
                  by simp [stepB, hpa, hp, ht, hex, hpf, hu]⟩
        · exact Or.inl ⟨by simp [condB, hpa, hp, ht, hex],
            by simp [stepB, hpa, hp, ht, hex]⟩

/-- A row already cleared in place stays cleared (variant B). -/
theorem foldB_stable_clear (items : List Invoice) (st : List Invoice × Fs)
    (k : Nat) (r : Invoice) (h : st.1[k]? = some (clearPF r)) :
    ((items.foldl (stepB rootDir now parse ufail) st).1)[k]? =
      some (clearPF r) := by
  induction items generalizing st with
  | nil => simpa using h
  | cons it its ih =>
    simp only [List.foldl_cons]
    refine ih (stepB rootDir now parse ufail st it) ?_
    rcases stepB_rows_shape rootDir now parse ufail st it with hs | hs <;> rw [hs]
    · exact h
    · simp [clearById_getElem?, h, clearPF, clearPF_clearPF]

/-- In variant B every row whose snapshot entry of matching id satisfies
the cleanup condition comes out with `payment_file` cleared — the update
runs no matter what the file deletion does. -/
theorem foldB_clean (items : List Invoice) (st : List Invoice × Fs) (k : Nat)
    (r : Invoice) (it0 : Invoice)
    (hit0 : it0 ∈ items) (hcond : condB now parse it0 = true)
    (hk : st.1[k]? = some r) (hid : r.id = it0.id) :
    ((items.foldl (stepB rootDir now parse ufail) st).1)[k]? =
      some (clearPF r) := by
  induction items generalizing st with
  | nil => cases hit0
  | cons it its ih =>
    simp only [List.foldl_cons]
    rcases stepB_spec rootDir now parse ufail st it with ⟨hcf, hse⟩ | ⟨hct, hr, _⟩
    · rw [hse]
      rcases List.mem_cons.mp hit0 with rfl | hmem
      · rw [hcf] at hcond; cases hcond
      · exact ih st hmem hk
    · by_cases hidm : r.id = it.id
      · refine foldB_stable_clear rootDir now parse ufail its _ k r ?_
        rw [hr]
        simp [clearById_getElem?, hk, hidm]
      · have hit0m : it0 ∈ its := by
          rcases List.mem_cons.mp hit0 with rfl | hmem
          · exact absurd hid hidm
          · exact hmem
        refine ih _ hit0m ?_
        rw [hr]
        simp [clearById_getElem?, hk, hidm]

/-- A row no snapshot entry of matching id qualifies for is untouched
(variant B). -/
theorem foldB_untouched (items : List Invoice) (st : List Invoice × Fs)
    (k : Nat) (r : Invoice) (hk : st.1[k]? = some r)
    (hno : ∀ it ∈ items, it.id = r.id → condB now parse it = false) :
    ((items.foldl (stepB rootDir now parse ufail) st).1)[k]? = some r := by
  induction items generalizing st with
  | nil => simpa using hk
  | cons it its ih =>
    simp only [List.foldl_cons]
    rcases stepB_spec rootDir now parse ufail st it with ⟨hcf, hse⟩ | ⟨hct, hr, _⟩
    · rw [hse]
      exact ih st hk (fun it2 h2 => hno it2 (List.mem_cons_of_mem _ h2))
    · have hne : ¬ r.id = it.id := by
        intro h
        rw [hno it (List.mem_cons_self _ _) h.symm] at hct
        cases hct
      refine ih _ ?_ (fun it2 h2 => hno it2 (List.mem_cons_of_mem _ h2))
      rw [hr]
      simp [clearById_getElem?, hk, hne]

/-- The file of a qualifying snapshot row whose deletion does not fail is
gone after a variant-B pass. -/
theorem foldB_file_deleted (items : List Invoice) (st : List Invoice × Fs)
    (it0 : Invoice) (pf : String)
    (hnd : st.2.Nodup)
    (hit0 : it0 ∈ items) (hcond : condB now parse it0 = true)
    (hpf : it0.payment_file = some pf)
    (hu : ufail (fullPath rootDir pf) = false) :
    fullPath rootDir pf ∉ (items.foldl (stepB rootDir now parse ufail) st).2 := by
  induction items generalizing st with
  | nil => cases hit0
  | cons it its ih =>
    simp only [List.foldl_cons]
    have hnd2 : (stepB rootDir now parse ufail st it).2.Nodup := by
      rcases stepB_spec rootDir now parse ufail st it with ⟨_, hse⟩ | ⟨_, _, hfs⟩
      · rw [hse]; exact hnd
      · rcases hfs with ⟨_, hfs⟩ | ⟨pf2, _, ⟨_, hfs⟩ | ⟨_, hfs⟩⟩ <;> rw [hfs]
        · exact hnd
        · exact hnd
        · exact hnd.erase _
    rcases List.mem_cons.mp hit0 with rfl | hmem
    · -- this very iteration deletes the file; afterwards it can only shrink
      rcases stepB_spec rootDir now parse ufail st it0 with ⟨hcf, _⟩ | ⟨_, _, hfs⟩
      · rw [hcf] at hcond; cases hcond
      · rcases hfs with ⟨hn, _⟩ | ⟨pf2, hpf2, ⟨hu2, _⟩ | ⟨_, hfs⟩⟩
        · rw [hpf] at hn; cases hn
        · rw [hpf] at hpf2; cases hpf2; rw [hu2] at hu; cases hu
        · rw [hpf] at hpf2
          cases hpf2
          intro hmemfs
          have h2 := foldB_fs_subset rootDir now parse ufail its _ hmemfs
          rw [hfs, hnd.mem_erase_iff] at h2
          exact h2.1 rfl
    · exact ih _ hnd2 hmem

/-- A file no *qualifying* snapshot row refers to survives a variant-B
pass. -/
theorem foldB_file_kept (items : List Invoice) (st : List Invoice × Fs)
    (p : String) (hp : p ∈ st.2)
    (hno : ∀ it ∈ items, condB now parse it = true → ∀ pf,
      it.payment_file = some pf → fullPath rootDir pf ≠ p) :
    p ∈ (items.foldl (stepB rootDir now parse ufail) st).2 := by
  induction items generalizing st with
  | nil => simpa using hp
  | cons it its ih =>
    simp only [List.foldl_cons]
    refine ih _ ?_ (fun it2 h2 => hno it2 (List.mem_cons_of_mem _ h2))
    rcases stepB_spec rootDir now parse ufail st it with ⟨_, hse⟩ | ⟨hct, _, hfs⟩
    · rw [hse]; exact hp
    · rcases hfs with ⟨_, hfs⟩ | ⟨pf2, hpf2, ⟨_, hfs⟩ | ⟨_, hfs⟩⟩ <;> rw [hfs]
      · exact hp
      · exact hp
      · exact (List.mem_erase_of_ne
          (hno it (List.mem_cons_self _ _) hct pf2 hpf2).symm).mpr hp

end SweepLemmas

/-! ## Store-level consequences for the two sweeps -/

theorem condA_isSome {now : Int} {parse : String → Option Int} {it : Invoice}
    (h : condA now parse it = true) : it.payment_file.isSome = true := by
  simp only [condA, Bool.and_eq_true] at h
  exact h.1

theorem condB_paid_at_isSome {now : Int} {parse : String → Option Int}
    {it : Invoice} (h : condB now parse it = true) : it.paid_at.isSome = true := by
  rcases hpa : it.paid_at with _ | pa
  · simp [condB, hpa] at h
  · simp

theorem mem_itemsA {s : Store} {inv : Invoice} (hinv : inv ∈ s.rows)
    (hpf : inv.payment_file.isSome = true) : inv ∈ itemsA s :=
  List.mem_filter.mpr ⟨hinv, hpf⟩

theorem mem_itemsB {s : Store} {inv : Invoice} (hinv : inv ∈ s.rows)
    (hpf : inv.payment_file.isSome = true) (hpa : inv.paid_at.isSome = true) :
    inv ∈ itemsB s :=
  List.mem_filter.mpr ⟨hinv, by simp [hpf, hpa]⟩

theorem rows_eq_of_id_eq {s : Store} (hnd : (s.rows.map Invoice.id).Nodup)
    {a b : Invoice} (ha : a ∈ s.rows) (hb : b ∈ s.rows) (h : a.id = b.id) :
    a = b :=
  List.inj_on_of_nodup_map hnd ha hb h

theorem forall₂_mem_left {R : Invoice → Invoice → Prop} {l1 l2 : List Invoice}
    (h : List.Forall₂ R l1 l2) :
    ∀ r ∈ l1, ∃ r2 ∈ l2, R r r2 := by
  intro r hr
  obtain ⟨k, hk⟩ := List.mem_iff_getElem?.mp hr
  obtain ⟨hlt, hEq⟩ := List.getElem?_eq_some.mp hk
  rcases List.forall₂_iff_get.mp h with ⟨hlen, hget⟩
  refine ⟨l2.get ⟨k, by omega⟩, List.get_mem _ _ _, ?_⟩
  have h2 := hget k hlt (by omega)
  rwa [List.get_eq_getElem, hEq] at h2

section CleanupWrappers

variable (rootDir : String) (now : Int) (parse : String → Option Int)
  (ufail : String → Bool) (s : Store) (fs : Fs)

/-- Variant A sweep, positive case: if no other deletion failure can abort
the pass first, a row meeting the cleanup condition has its
`payment_file` nulled. -/
theorem cleanupPayments_cleans (inv : Invoice)
    (hna : ∀ it ∈ itemsA s, ∀ pf, it.payment_file = some pf →
      condA now parse it = true →
      ufail (fullPath rootDir pf) = false ∨ fullPath rootDir pf ∉ fs)
    (hinv : inv ∈ s.rows) (hcond : condA now parse inv = true) :
    clearPF inv ∈ (cleanupPayments rootDir now parse ufail s fs).1.rows := by
  obtain ⟨k, hk⟩ := List.mem_iff_getElem?.mp hinv
  exact List.mem_iff_getElem?.mpr ⟨k,
    foldA_clean rootDir now parse ufail (itemsA s) ⟨s.rows, fs, false⟩ fs k inv inv
      rfl (List.Subset.refl _) hna (mem_itemsA hinv (condA_isSome hcond))
      hcond hk rfl⟩

/-- Variant A sweep, negative case: a row meeting no cleanup condition is
untouched (ids assumed unique, as AUTOINCREMENT guarantees). -/
theorem cleanupPayments_untouched (inv : Invoice)
    (hnd : (s.rows.map Invoice.id).Nodup)
    (hinv : inv ∈ s.rows) (hcond : condA now parse inv = false) :
    inv ∈ (cleanupPayments rootDir now parse ufail s fs).1.rows := by
  obtain ⟨k, hk⟩ := List.mem_iff_getElem?.mp hinv
  refine List.mem_iff_getElem?.mpr ⟨k,
    foldA_untouched rootDir now parse ufail (itemsA s) ⟨s.rows, fs, false⟩ k inv hk ?_⟩
  intro it hit hid
  rw [rows_eq_of_id_eq hnd (List.mem_of_mem_filter hit) hinv hid]
  exact hcond

theorem cleanupPayments_file_deleted (inv : Invoice) (pf : String)
    (hnd : fs.Nodup)
    (hna : ∀ it ∈ itemsA s, ∀ pf2, it.payment_file = some pf2 →
      condA now parse it = true →
      ufail (fullPath rootDir pf2) = false ∨ fullPath rootDir pf2 ∉ fs)
    (hinv : inv ∈ s.rows) (hcond : condA now parse inv = true)
    (hpf : inv.payment_file = some pf) :
    fullPath rootDir pf ∉ (cleanupPayments rootDir now parse ufail s fs).2 :=
  foldA_file_deleted rootDir now parse ufail (itemsA s) ⟨s.rows, fs, false⟩ fs inv pf
    rfl (List.Subset.refl _) hnd hna (mem_itemsA hinv (condA_isSome hcond)) hcond hpf

theorem cleanupPayments_file_kept (p : String) (hp : p ∈ fs)
    (hno : ∀ it ∈ s.rows, condA now parse it = true → ∀ pf,
      it.payment_file = some pf → fullPath rootDir pf ≠ p) :
    p ∈ (cleanupPayments rootDir now parse ufail s fs).2 :=
  foldA_file_kept rootDir now parse ufail (itemsA s) ⟨s.rows, fs, false⟩ p hp
    (fun it hit => hno it (List.mem_of_mem_filter hit))

/-- Variant B sweep, positive case: the `payment_file = NULL` update runs
for every row meeting the condition, whatever the unlink outcomes. -/
theorem cleanupOldPayments_cleans (inv : Invoice)
    (hinv : inv ∈ s.rows) (hpf : inv.payment_file.isSome = true)
    (hcond : condB now parse inv = true) :
    clearPF inv ∈ (cleanupOldPayments rootDir now parse ufail s fs).1.rows := by
  obtain ⟨k, hk⟩ := List.mem_iff_getElem?.mp hinv
  exact List.mem_iff_getElem?.mpr ⟨k,
    foldB_clean rootDir now parse ufail (itemsB s) (s.rows, fs) k inv inv
      (mem_itemsB hinv hpf (condB_paid_at_isSome hcond)) hcond hk rfl⟩

theorem cleanupOldPayments_untouched (inv : Invoice)
    (hnd : (s.rows.map Invoice.id).Nodup)
    (hinv : inv ∈ s.rows) (hcond : condB now parse inv = false) :
    inv ∈ (cleanupOldPayments rootDir now parse ufail s fs).1.rows := by
  obtain ⟨k, hk⟩ := List.mem_iff_getElem?.mp hinv
  refine List.mem_iff_getElem?.mpr ⟨k,
    foldB_untouched rootDir now parse ufail (itemsB s) (s.rows, fs) k inv hk ?_⟩
  intro it hit hid
  rw [rows_eq_of_id_eq hnd (List.mem_of_mem_filter hit) hinv hid]
  exact hcond

theorem cleanupOldPayments_file_deleted (inv : Invoice) (pf : String)
    (hnd : fs.Nodup)
    (hinv : inv ∈ s.rows) (hcond : condB now parse inv = true)
    (hpf : inv.payment_file = some pf)
    (hu : ufail (fullPath rootDir pf) = false) :
    fullPath rootDir pf ∉ (cleanupOldPayments rootDir now parse ufail s fs).2 :=
  foldB_file_deleted rootDir now parse ufail (itemsB s) (s.rows, fs) inv pf hnd
    (mem_itemsB hinv (by simp [hpf]) (condB_paid_at_isSome hcond)) hcond hpf hu

theorem cleanupOldPayments_file_kept (p : String) (hp : p ∈ fs)
    (hno : ∀ it ∈ s.rows, condB now parse it = true → ∀ pf,
      it.payment_file = some pf → fullPath rootDir pf ≠ p) :
    p ∈ (cleanupOldPayments rootDir now parse ufail s fs).2 :=
  foldB_file_kept rootDir now parse ufail (itemsB s) (s.rows, fs) p hp
    (fun it hit => hno it (List.mem_of_mem_filter hit))

end CleanupWrappers

/-! ## Further generic helpers -/

theorem forall₂_mem_right {R : Invoice → Invoice → Prop} {l1 l2 : List Invoice}
    (h : List.Forall₂ R l1 l2) :
    ∀ r2 ∈ l2, ∃ r ∈ l1, R r r2 := by
  induction h with
  | nil => intro r2 h2; cases h2
  | cons hr _ ih =>
    intro r2 h2
    rcases List.mem_cons.mp h2 with rfl | h2
    · exact ⟨_, List.mem_cons_self _ _, hr⟩
    · obtain ⟨r, hr2, hR⟩ := ih r2 h2
      exact ⟨r, List.mem_cons_of_mem _ hr2, hR⟩

theorem fullPath_inj {rootDir a b : String} (h : fullPath rootDir a = fullPath rootDir b) :
    a = b := by
  have h2 : (fullPath rootDir a).data = (fullPath rootDir b).data := by rw [h]
  simp only [fullPath, String.data_append] at h2
  rcases a with ⟨da⟩
  rcases b with ⟨db⟩
  exact congrArg String.mk (List.append_cancel_left h2)

theorem map_noop_of_no_id (rows : List Invoice) (i : Nat) (f : Invoice → Invoice)
    (h : ∀ r ∈ rows, r.id ≠ i) :
    (rows.map fun r => if r.id = i then f r else r) = rows := by
  induction rows with
  | nil => rfl
  | cons r rs ih =>
    simp only [List.map_cons, if_neg (h r (List.mem_cons_self _ _))]
    rw [ih (fun r2 h2 => h r2 (List.mem_cons_of_mem _ h2))]

theorem any_id_eq_false (rows : List Invoice) (i : Nat)
    (h : ∀ r ∈ rows, r.id ≠ i) :
    (rows.any fun r => r.id = i) = false := by
  simp only [List.any_eq_false, decide_eq_true_eq]
  exact h

theorem forall₂_map_self {R : Invoice → Invoice → Prop} (f : Invoice → Invoice)
    (l : List Invoice) (h : ∀ r, R r (f r)) :
    List.Forall₂ R l (l.map f) := by
  induction l with
  | nil => exact .nil
  | cons r rs ih => exact .cons (h r) ih

theorem paidDataPreserved_of_rowRel {l1 l2 : List Invoice}
    (h : List.Forall₂ RowRel l1 l2) : PaidDataPreserved l1 l2 :=
  h.imp fun _ _ hr => ⟨hr.fields.1, hr.fields.2.1, hr.fields.2.2.1⟩

/-- Both sweeps preserve each row's `id`, `paid` and `paid_at` in place. -/
theorem cleanupPayments_paid_preserved (rootDir : String) (now : Int)
    (parse : String → Option Int) (ufail : String → Bool) (s : Store) (fs : Fs) :
    PaidDataPreserved s.rows (cleanupPayments rootDir now parse ufail s fs).1.rows :=
  paidDataPreserved_of_rowRel (cleanupPayments_shape rootDir now parse ufail s fs)

theorem cleanupOldPayments_paid_preserved (rootDir : String) (now : Int)
    (parse : String → Option Int) (ufail : String → Bool) (s : Store) (fs : Fs) :
    PaidDataPreserved s.rows (cleanupOldPayments rootDir now parse ufail s fs).1.rows :=
  paidDataPreserved_of_rowRel (cleanupOldPayments_shape rootDir now parse ufail s fs)

/-! ## Claim C6 -/

/-- C6: `attachPaymentFile` (`POST /api/invoice/upload-payment/:id`) with
a declared MIME type other than `application/pdf` is rejected by multer's
`fileFilter` before anything is written, in both variants: the caller
gets a validation error, and neither the invoice table nor the payments
directory changes — in particular the target invoice's `paid`, `paid_at`
and `payment_file` are exactly as before the call. -/
theorem upload_non_pdf_rejected_no_mutation (rootDir nowIso : String)
    (nowMs : Int) (i : Nat) (mime : String) (s : Store) (fs : Fs)
    (h : mime ≠ pdfMime) :
    uploadPaymentA rootDir nowIso nowMs i true mime s fs =
        (.error .validation, s, fs) ∧
    uploadPaymentB rootDir nowIso nowMs i true mime s fs =
        (.error .validation, s, fs) := by
  constructor
  · simp [uploadPaymentA, h]
  · simp [uploadPaymentB, h]

/-- Witness for C6: a PNG upload attempt against a one-row store. -/
theorem upload_non_pdf_rejected_no_mutation_witness :
    uploadPaymentA "/mnt/data" "2026-10-11T05:00:00.000Z" 1791694800000 1
        true "image/png" ⟨[{ id := 1, paid := false }], 2⟩ [] =
      (.error .validation, ⟨[{ id := 1, paid := false }], 2⟩, []) ∧
    uploadPaymentB "/mnt/data" "2026-10-11T05:00:00.000Z" 1791694800000 1
        true "image/png" ⟨[{ id := 1, paid := false }], 2⟩ [] =
      (.error .validation, ⟨[{ id := 1, paid := false }], 2⟩, []) :=
  upload_non_pdf_rejected_no_mutation "/mnt/data" "2026-10-11T05:00:00.000Z"
    1791694800000 1 "image/png" ⟨[{ id := 1, paid := false }], 2⟩ [] (by decide)

/-! ## Claim C5 -/

/-- C5 counterexample: a create request in which `supplier`,
`organization_type` and `amount` are all *present* but `amount` is `0` is
still rejected by variant B's `if (!supplier || !organization_type ||
!amount)` truthiness check, with a validation error and no row inserted —
refuting "when all are present it inserts a row". -/
theorem create_present_zero_amount_rejected :
    createB "2026-10-11T05:00:00.000Z"
        { supplier := some "Acme", organization_type := some "LLC",
          amount := some 0 } ⟨[], 1⟩ =
      (.error .validation, ⟨[], 1⟩) := by decide

/-- C5 (amended): variant B's create rejects exactly the requests in
which `supplier`, `organization_type` or `amount` is absent *or falsy*
(empty string, zero), inserting no row; with all three truthy it inserts
a row with `created_at` = the current time, `paid=false`,
boolean-coerced `need_new_request`, NULL payment fields, and returns the
newly assigned id.  Variant A performs no validation and always inserts,
additionally storing `arrival_date` = the input or the current date, and
returns only a success flag, not the id. -/
theorem create_spec (nowIso today : String) (b : CreateBody) (s : Store) :
    ((strFalsy b.supplier || strFalsy b.organization_type ||
        intFalsy b.amount) = true →
      createB nowIso b s = (.error .validation, s)) ∧
    ((strFalsy b.supplier || strFalsy b.organization_type ||
        intFalsy b.amount) = false →
      createB nowIso b s =
        (.ok s.nextId,
          ⟨s.rows ++
            [{ id := s.nextId, supplier := b.supplier,
               organization_type := b.organization_type, amount := b.amount,
               created_at := some nowIso, arrival_date := none,
               need_new_request := b.need_new_request, paid := false,
               payment_file := none, paid_at := none }],
            s.nextId + 1⟩)) ∧
    createA nowIso today b s =
      (.ok (),
        ⟨s.rows ++
          [{ id := s.nextId, supplier := b.supplier,
             organization_type := b.organization_type, amount := b.amount,
             created_at := some nowIso,
             arrival_date := some (match b.arrival_date with
               | none => today
               | some a => if a = "" then today else a),
             need_new_request := b.need_new_request, paid := false,
             payment_file := none, paid_at := none }],
          s.nextId + 1⟩) := by
  refine ⟨fun h => ?_, fun h => ?_, rfl⟩
  · simp [createB, h]
  · simp [createB, h]

/-- Witness for C5: the falsy-`amount` rejection and a successful insert. -/
theorem create_spec_witness :
    createB "2026-10-11T05:00:00.000Z"
        { supplier := some "Acme", organization_type := some "LLC",
          amount := some 0 } ⟨[], 1⟩ = (.error .validation, ⟨[], 1⟩) ∧
    createB "2026-10-11T05:00:00.000Z"
        { supplier := some "Acme", organization_type := some "LLC",
          amount := some 150 } ⟨[], 1⟩ =
      (.ok 1,
        ⟨[{ id := 1, supplier := some "Acme", organization_type := some "LLC",
            amount := some 150, created_at := some "2026-10-11T05:00:00.000Z",
            arrival_date := none, need_new_request := false, paid := false,
            payment_file := none, paid_at := none }], 2⟩) :=
  ⟨(create_spec "2026-10-11T05:00:00.000Z" "2026-10-11"
      { supplier := some "Acme", organization_type := some "LLC",
        amount := some 0 } ⟨[], 1⟩).1 (by decide),
   by
     have h := (create_spec "2026-10-11T05:00:00.000Z" "2026-10-11"
       { supplier := some "Acme", organization_type := some "LLC",
         amount := some 150 } ⟨[], 1⟩).2.1 (by decide)
     simpa using h⟩

/-! ## Claim C7 -/

/-- C7 counterexample: variant A's update route has no `this.changes`
check, so `updateFlag(999, true)` on a store without id 999 answers
success rather than not-found (the store is unchanged, no row created —
but the claimed not-found error never happens). -/
theorem updateFlagA_missing_id_reports_success :
    updateFlagA 999 true
        ⟨[{ id := 1, supplier := some "Acme",
            organization_type := some "LLC", amount := some 150 }], 2⟩ =
      (.ok (),
        ⟨[{ id := 1, supplier := some "Acme",
            organization_type := some "LLC", amount := some 150 }], 2⟩) := by
  decide

/-- C7 (amended): on an id that is not in the store, variant B's
update / mark-paid / upload-payment answer not-found — a condition
distinct from a validation error — with the table unchanged and no row
created; variant A's update and mark-paid silently answer success,
likewise leaving the table unchanged. -/
theorem missing_id_not_found (rootDir nowIso : String) (nowMs : Int)
    (i : Nat) (flag : Bool) (s : Store) (fs : Fs)
    (h : ∀ r ∈ s.rows, r.id ≠ i) :
    updateFlagB i flag s = (.error .notFound, s) ∧
    markPaidB nowIso i s = (.error .notFound, s) ∧
    (uploadPaymentB rootDir nowIso nowMs i true pdfMime s fs).1 =
      .error .notFound ∧
    (uploadPaymentB rootDir nowIso nowMs i true pdfMime s fs).2.1 = s ∧
    ApiErr.notFound ≠ ApiErr.validation ∧
    updateFlagA i flag s = (.ok (), s) ∧
    markPaidA nowIso i s = (.ok nowIso, s) := by
  have hany := any_id_eq_false s.rows i h
  have hupd : setFlagById s.rows i flag = s.rows :=
    map_noop_of_no_id s.rows i _ h
  have hmp : markRowPaid s.rows i nowIso = s.rows :=
    map_noop_of_no_id s.rows i _ h
  refine ⟨?_, ?_, ?_, ?_, by decide, ?_, ?_⟩
  · simp [updateFlagB, hany, setFlagById] at hupd ⊢
    simp [hupd]
  · simp [markPaidB, hany, markRowPaid] at hmp ⊢
    simp [hmp]
  · simp [uploadPaymentB, hany]
  · simp [uploadPaymentB, hany]
  · simp [updateFlagA, setFlagById] at hupd ⊢
    simp [hupd]
  · simp [markPaidA, markRowPaid] at hmp ⊢
    simp [hmp]

/-- Witness for C7 on the empty store and id 999. -/
theorem missing_id_not_found_witness :
    updateFlagB 999 true ⟨[], 1⟩ = (.error .notFound, ⟨[], 1⟩) ∧
    markPaidB "2026-10-11T05:00:00.000Z" 999 ⟨[], 1⟩ =
      (.error .notFound, ⟨[], 1⟩) ∧
    updateFlagA 999 true ⟨[], 1⟩ = (.ok (), ⟨[], 1⟩) :=
  have h := missing_id_not_found "/mnt/data" "2026-10-11T05:00:00.000Z"
    1791694800000 999 true ⟨[], 1⟩ [] (by intro r hr; cases hr)
  ⟨h.1, h.2.1, h.2.2.2.2.2.1⟩

/-! ## Claim C4 -/

/-- C4 counterexample: mark-paid runs `UPDATE invoices SET paid=1,
paid_at=? WHERE id=?` unconditionally, so on an already-paid invoice the
stored `paid_at` is overwritten with the new current time — `paid_at`,
once set, *is* changed by a later `markPaid`. -/
theorem markPaid_overwrites_paid_at :
    (markPaidB "2026-10-11T05:00:00.000Z" 1
        ⟨[{ id := 1, paid := true,
            paid_at := some "2026-10-01T02:00:00.000Z" }], 2⟩).2 =
      ⟨[{ id := 1, paid := true,
          paid_at := some "2026-10-11T05:00:00.000Z" }], 2⟩ ∧
    some "2026-10-11T05:00:00.000Z" ≠
      (some "2026-10-01T02:00:00.000Z" : Option String) := by
  decide

/-- C4 (amended): `updateFlag` and both retention sweeps never change any
row's `id`, `paid` or `paid_at`; `markPaid` and a successful
`attachPaymentFile`, however, set the target row's `paid_at` to the
current time on *every* call, overwriting any previously stored value —
payment is last-write-wins, not a one-way transition. -/
theorem paid_at_mutation_spec (rootDir nowIso : String) (now : Int)
    (nowMs : Int) (parse : String → Option Int) (ufail : String → Bool)
    (i : Nat) (flag : Bool) (s : Store) (fs : Fs) :
    PaidDataPreserved s.rows (updateFlagA i flag s).2.rows ∧
    PaidDataPreserved s.rows (updateFlagB i flag s).2.rows ∧
    PaidDataPreserved s.rows
      (cleanupPayments rootDir now parse ufail s fs).1.rows ∧
    PaidDataPreserved s.rows
      (cleanupOldPayments rootDir now parse ufail s fs).1.rows ∧
    (∀ r ∈ s.rows, r.id = i →
      { r with paid := true, paid_at := some nowIso } ∈
        (markPaidA nowIso i s).2.rows) ∧
    (∀ r ∈ s.rows, r.id = i →
      { r with paid := true, paid_at := some nowIso } ∈
        (markPaidB nowIso i s).2.rows) ∧
    (∀ r ∈ s.rows, r.id = i →
      { r with
          paid := true, paid_at := some nowIso,
          payment_file := some ("/payments/" ++ uploadFileName i nowMs) } ∈
        (uploadPaymentA rootDir nowIso nowMs i true pdfMime s fs).2.1.rows) := by
  have hflag : ∀ rows, PaidDataPreserved rows (setFlagById rows i flag) :=
    fun rows => forall₂_map_self _ _
      (fun r => by by_cases h : r.id = i <;> simp [h])
  have hupdB : (updateFlagB i flag s).2.rows = setFlagById s.rows i flag := by
    simp only [updateFlagB]
    split <;> rfl
  have hmpB : (markPaidB nowIso i s).2.rows = markRowPaid s.rows i nowIso := by
    simp only [markPaidB]
    split <;> rfl
  refine ⟨hflag s.rows, hupdB ▸ hflag s.rows,
    cleanupPayments_paid_preserved rootDir now parse ufail s fs,
    cleanupOldPayments_paid_preserved rootDir now parse ufail s fs,
    ?_, ?_, ?_⟩
  · intro r hr hid
    exact List.mem_map.mpr ⟨r, hr, by simp [markPaidA, markRowPaid, hid]⟩
  · intro r hr hid
    rw [hmpB]
    exact List.mem_map.mpr ⟨r, hr, by simp [hid]⟩
  · intro r hr hid
    exact List.mem_map.mpr ⟨r, hr, by simp [uploadPaymentA, setRowPaidFile, hid]⟩

/-- Witness for C4: a second `markPaid` on an already-paid row rewrites
its `paid_at` to the new clock value. -/
theorem paid_at_mutation_spec_witness :
    ({ id := 1, paid := true,
        paid_at := some "2026-10-11T05:00:00.000Z" } : Invoice) ∈
      (markPaidB "2026-10-11T05:00:00.000Z" 1
        ⟨[{ id := 1, paid := true,
            paid_at := some "2026-10-01T02:00:00.000Z" }], 2⟩).2.rows :=
  (paid_at_mutation_spec "/mnt/data" "2026-10-11T05:00:00.000Z"
      1791694800000 1791694800000 (fun _ => none) (fun _ => false) 1 true
      ⟨[{ id := 1, paid := true,
          paid_at := some "2026-10-01T02:00:00.000Z" }], 2⟩ []).2.2.2.2.2.1
    { id := 1, paid := true, paid_at := some "2026-10-01T02:00:00.000Z" }
    (List.mem_cons_self _ _) rfl

/-! ## Claim C10 -/

/-- C10: a retention sweep (either variant) leaves an invoice whose
`paid_at` is NULL or does not parse as a date entirely unchanged: the row
appears unmodified (keeping its non-null `payment_file`) in the swept
store, and — as long as no other qualifying row references the same file
path — its file stays on disk.  An empty-string `paid_at` falls under the
unparseable disjunct (`Date.parse("")` is `NaN`); variant A additionally
skips the empty string before parsing. -/
theorem sweep_skips_null_or_unparseable (rootDir : String) (now : Int)
    (parse : String → Option Int) (ufail : String → Bool) (s : Store)
    (fs : Fs) (inv : Invoice)
    (hnd : (s.rows.map Invoice.id).Nodup)
    (hinv : inv ∈ s.rows)
    (hpa : inv.paid_at = none ∨
      ∃ pa, inv.paid_at = some pa ∧ parse pa = none) :
    inv ∈ (cleanupPayments rootDir now parse ufail s fs).1.rows ∧
    inv ∈ (cleanupOldPayments rootDir now parse ufail s fs).1.rows ∧
    ∀ pf, inv.payment_file = some pf →
      (∀ r ∈ s.rows, ∀ pf2, r.payment_file = some pf2 → pf2 = pf → r = inv) →
      fullPath rootDir pf ∈ fs →
      fullPath rootDir pf ∈ (cleanupPayments rootDir now parse ufail s fs).2 ∧
      fullPath rootDir pf ∈ (cleanupOldPayments rootDir now parse ufail s fs).2 := by
  have hcondA : condA now parse inv = false := by
    rcases hpa with h | ⟨pa, h, hp⟩
    · simp [condA, h]
    · simp [condA, h, hp]
  have hcondB : condB now parse inv = false := by
    rcases hpa with h | ⟨pa, h, hp⟩
    · simp [condB, h]
    · simp [condB, h, hp]
  refine ⟨cleanupPayments_untouched rootDir now parse ufail s fs inv hnd hinv hcondA,
    cleanupOldPayments_untouched rootDir now parse ufail s fs inv hnd hinv hcondB,
    ?_⟩
  intro pf hpf halias hmem
  have hnoA : ∀ it ∈ s.rows, condA now parse it = true → ∀ pf2,
      it.payment_file = some pf2 → fullPath rootDir pf2 ≠ fullPath rootDir pf := by
    intro it hit hc pf2 hpf2 heq
    rw [halias it hit pf2 hpf2 (fullPath_inj heq)] at hc
    rw [hcondA] at hc
    cases hc
  have hnoB : ∀ it ∈ s.rows, condB now parse it = true → ∀ pf2,
      it.payment_file = some pf2 → fullPath rootDir pf2 ≠ fullPath rootDir pf := by
    intro it hit hc pf2 hpf2 heq
    rw [halias it hit pf2 hpf2 (fullPath_inj heq)] at hc
    rw [hcondB] at hc
    cases hc
  exact ⟨cleanupPayments_file_kept rootDir now parse ufail s fs _ hmem hnoA,
    cleanupOldPayments_file_kept rootDir now parse ufail s fs _ hmem hnoB⟩

/-- Witness for C10: a paid row with an unparseable `paid_at` and a file
on disk survives both sweeps intact. -/
theorem sweep_skips_null_or_unparseable_witness :
    ({ id := 1, paid := true, paid_at := some "not-a-date",
        payment_file := some "/payments/x.pdf" } : Invoice) ∈
      (cleanupPayments "/mnt/data" 1791694800000 (fun _ => none)
        (fun _ => false)
        ⟨[{ id := 1, paid := true, paid_at := some "not-a-date",
            payment_file := some "/payments/x.pdf" }], 2⟩
        [fullPath "/mnt/data" "/payments/x.pdf"]).1.rows ∧
    ({ id := 1, paid := true, paid_at := some "not-a-date",
        payment_file := some "/payments/x.pdf" } : Invoice) ∈
      (cleanupOldPayments "/mnt/data" 1791694800000 (fun _ => none)
        (fun _ => false)
        ⟨[{ id := 1, paid := true, paid_at := some "not-a-date",
            payment_file := some "/payments/x.pdf" }], 2⟩
        [fullPath "/mnt/data" "/payments/x.pdf"]).1.rows ∧
    fullPath "/mnt/data" "/payments/x.pdf" ∈
      (cleanupPayments "/mnt/data" 1791694800000 (fun _ => none)
        (fun _ => false)
        ⟨[{ id := 1, paid := true, paid_at := some "not-a-date",
            payment_file := some "/payments/x.pdf" }], 2⟩
        [fullPath "/mnt/data" "/payments/x.pdf"]).2 ∧
    fullPath "/mnt/data" "/payments/x.pdf" ∈
      (cleanupOldPayments "/mnt/data" 1791694800000 (fun _ => none)
        (fun _ => false)
        ⟨[{ id := 1, paid := true, paid_at := some "not-a-date",
            payment_file := some "/payments/x.pdf" }], 2⟩
        [fullPath "/mnt/data" "/payments/x.pdf"]).2 := by
  have h := sweep_skips_null_or_unparseable "/mnt/data" 1791694800000
    (fun _ => none) (fun _ => false)
    ⟨[{ id := 1, paid := true, paid_at := some "not-a-date",
        payment_file := some "/payments/x.pdf" }], 2⟩
    [fullPath "/mnt/data" "/payments/x.pdf"]
    { id := 1, paid := true, paid_at := some "not-a-date",
      payment_file := some "/payments/x.pdf" }
    (by decide) (List.mem_cons_self _ _)
    (Or.inr ⟨"not-a-date", rfl, rfl⟩)
  have h2 := h.2.2 "/payments/x.pdf" rfl (by decide)
    (List.mem_cons_self _ _)
  exact ⟨h.1, h.2.1, h2.1, h2.2⟩

/-! ## Claim C1 -/

/-- C1 counterexample: variant B's `if (!paidAtTime) return` also skips a
row whose `paid_at` parses to the timestamp `0`
(`1970-01-01T00:00:00.000Z`, a parseable date far more than 10 days in
the past): its file is not deleted and its `payment_file` is not nulled
although `now - parse(paid_at)` strictly exceeds the window — so cleaning
does not happen "exactly when" the elapsed time exceeds 10 days. -/
theorem sweep_epoch_zero_not_cleaned :
    cleanupOldPayments "/mnt/data" 1791694800000
        (fun pa => if pa = "1970-01-01T00:00:00.000Z" then some 0 else none)
        (fun _ => false)
        ⟨[{ id := 1, paid := true,
            paid_at := some "1970-01-01T00:00:00.000Z",
            payment_file := some "/payments/invoice_1_0.pdf" }], 2⟩
        [fullPath "/mnt/data" "/payments/invoice_1_0.pdf"] =
      (⟨[{ id := 1, paid := true,
            paid_at := some "1970-01-01T00:00:00.000Z",
            payment_file := some "/payments/invoice_1_0.pdf" }], 2⟩,
        [fullPath "/mnt/data" "/payments/invoice_1_0.pdf"]) ∧
    1791694800000 - 0 > maxAgeMs := by decide

/-- C1 (amended): for every invoice with a non-null `payment_file` and a
`paid_at` parsing to a timestamp `t` (ids unique, file references
unaliased, disk duplicate-free, no deletion failures): variant A's sweep
deletes the referenced file and nulls `payment_file` exactly when
`now - t` strictly exceeds 10 days, while variant B does the same except
that it also skips the falsy timestamp `t = 0`; rows not selected are
left untouched, with their files still on disk, and neither sweep ever
changes any invoice's `id`, `paid` or `paid_at`. -/
theorem sweep_retention_spec (rootDir : String) (now : Int)
    (parse : String → Option Int) (s : Store) (fs : Fs)
    (hnd : (s.rows.map Invoice.id).Nodup) (hfs : fs.Nodup)
    (halias : ∀ r ∈ s.rows, ∀ r2 ∈ s.rows, r.payment_file.isSome →
      r.payment_file = r2.payment_file → r = r2) :
    PaidDataPreserved s.rows
      (cleanupPayments rootDir now parse (fun _ => false) s fs).1.rows ∧
    PaidDataPreserved s.rows
      (cleanupOldPayments rootDir now parse (fun _ => false) s fs).1.rows ∧
    ∀ inv ∈ s.rows, ∀ pf pa t, inv.payment_file = some pf →
      inv.paid_at = some pa → pa ≠ "" → parse pa = some t →
      ((maxAgeMs < now - t →
        (clearPF inv ∈
            (cleanupPayments rootDir now parse (fun _ => false) s fs).1.rows ∧
          fullPath rootDir pf ∉
            (cleanupPayments rootDir now parse (fun _ => false) s fs).2) ∧
        (t ≠ 0 →
          clearPF inv ∈
            (cleanupOldPayments rootDir now parse (fun _ => false) s fs).1.rows ∧
          fullPath rootDir pf ∉
            (cleanupOldPayments rootDir now parse (fun _ => false) s fs).2) ∧
        (t = 0 →
          inv ∈
            (cleanupOldPayments rootDir now parse (fun _ => false) s fs).1.rows ∧
          (fullPath rootDir pf ∈ fs →
            fullPath rootDir pf ∈
              (cleanupOldPayments rootDir now parse (fun _ => false) s fs).2))) ∧
       (¬ maxAgeMs < now - t →
        inv ∈ (cleanupPayments rootDir now parse (fun _ => false) s fs).1.rows ∧
        inv ∈
          (cleanupOldPayments rootDir now parse (fun _ => false) s fs).1.rows ∧
        (fullPath rootDir pf ∈ fs →
          fullPath rootDir pf ∈
            (cleanupPayments rootDir now parse (fun _ => false) s fs).2 ∧
          fullPath rootDir pf ∈
            (cleanupOldPayments rootDir now parse (fun _ => false) s fs).2))) := by
  have hna : ∀ it ∈ itemsA s, ∀ pf2, it.payment_file = some pf2 →
      condA now parse it = true →
      (fun _ => false : String → Bool) (fullPath rootDir pf2) = false ∨
        fullPath rootDir pf2 ∉ fs :=
    fun _ _ _ _ _ => Or.inl rfl
  refine ⟨cleanupPayments_paid_preserved rootDir now parse (fun _ => false) s fs,
    cleanupOldPayments_paid_preserved rootDir now parse (fun _ => false) s fs,
    ?_⟩
  intro inv hinv pf pa t hpf hpa hpe hp
  constructor
  · intro hex
    have hcondA : condA now parse inv = true := by
      simp [condA, hpf, hpa, hpe, hp, hex]
    refine ⟨⟨cleanupPayments_cleans rootDir now parse (fun _ => false) s fs inv
        hna hinv hcondA,
      cleanupPayments_file_deleted rootDir now parse (fun _ => false) s fs inv pf
        hfs hna hinv hcondA hpf⟩, ?_, ?_⟩
    · intro ht
      have hcondB : condB now parse inv = true := by
        simp [condB, hpa, hp, ht, hex]
      exact ⟨cleanupOldPayments_cleans rootDir now parse (fun _ => false) s fs inv
          hinv (by simp [hpf]) hcondB,
        cleanupOldPayments_file_deleted rootDir now parse (fun _ => false) s fs
          inv pf hfs hinv hcondB hpf rfl⟩
    · intro ht
      have hcondB : condB now parse inv = false := by
        simp [condB, hpa, hp, ht]
      refine ⟨cleanupOldPayments_untouched rootDir now parse (fun _ => false) s fs
          inv hnd hinv hcondB, ?_⟩
      intro hmem
      refine cleanupOldPayments_file_kept rootDir now parse (fun _ => false) s fs
        _ hmem ?_
      intro it hit hc pf2 hpf2 heq
      have : it = inv := halias it hit inv hinv (by simp [hpf2])
        (by rw [hpf2, hpf, fullPath_inj heq])
      rw [this, hcondB] at hc
      cases hc
  · intro hex
    have hcondA : condA now parse inv = false := by
      simp [condA, hpa, hp, hex]
    have hcondB : condB now parse inv = false := by
      simp [condB, hpa, hp, hex]
    refine ⟨cleanupPayments_untouched rootDir now parse (fun _ => false) s fs inv
        hnd hinv hcondA,
      cleanupOldPayments_untouched rootDir now parse (fun _ => false) s fs inv
        hnd hinv hcondB, ?_⟩
    intro hmem
    constructor
    · refine cleanupPayments_file_kept rootDir now parse (fun _ => false) s fs
        _ hmem ?_
      intro it hit hc pf2 hpf2 heq
      have : it = inv := halias it hit inv hinv (by simp [hpf2])
        (by rw [hpf2, hpf, fullPath_inj heq])
      rw [this, hcondA] at hc
      cases hc
    · refine cleanupOldPayments_file_kept rootDir now parse (fun _ => false) s fs
        _ hmem ?_
      intro it hit hc pf2 hpf2 heq
      have : it = inv := halias it hit inv hinv (by simp [hpf2])
        (by rw [hpf2, hpf, fullPath_inj heq])
      rw [this, hcondB] at hc
      cases hc

/-- Witness for C1: with `now` = 2026-10-11T05:00Z, an invoice paid 11
days earlier is cleaned by both sweeps (file gone, `payment_file`
nulled), while one paid 9 days earlier is untouched and keeps its file. -/
theorem sweep_retention_spec_witness :
    clearPF
      ({ id := 1, paid := true,
         paid_at := some "2026-09-30T05:00:00.000Z",
         payment_file := some "/payments/invoice_1_a.pdf" } : Invoice) ∈
      (cleanupPayments "/mnt/data" 1791694800000
        (fun pa => if pa = "2026-09-30T05:00:00.000Z" then some 1790744400000
          else if pa = "2026-10-02T05:00:00.000Z" then some 1790917200000
          else none)
        (fun _ => false)
        ⟨[{ id := 1, paid := true, paid_at := some "2026-09-30T05:00:00.000Z",
            payment_file := some "/payments/invoice_1_a.pdf" },
          { id := 2, paid := true, paid_at := some "2026-10-02T05:00:00.000Z",
            payment_file := some "/payments/invoice_2_b.pdf" }], 3⟩
        [fullPath "/mnt/data" "/payments/invoice_1_a.pdf",
         fullPath "/mnt/data" "/payments/invoice_2_b.pdf"]).1.rows ∧
    fullPath "/mnt/data" "/payments/invoice_1_a.pdf" ∉
      (cleanupPayments "/mnt/data" 1791694800000
        (fun pa => if pa = "2026-09-30T05:00:00.000Z" then some 1790744400000
          else if pa = "2026-10-02T05:00:00.000Z" then some 1790917200000
          else none)
        (fun _ => false)
        ⟨[{ id := 1, paid := true, paid_at := some "2026-09-30T05:00:00.000Z",
            payment_file := some "/payments/invoice_1_a.pdf" },
          { id := 2, paid := true, paid_at := some "2026-10-02T05:00:00.000Z",
            payment_file := some "/payments/invoice_2_b.pdf" }], 3⟩
        [fullPath "/mnt/data" "/payments/invoice_1_a.pdf",
         fullPath "/mnt/data" "/payments/invoice_2_b.pdf"]).2 ∧
    clearPF
      ({ id := 1, paid := true,
         paid_at := some "2026-09-30T05:00:00.000Z",
         payment_file := some "/payments/invoice_1_a.pdf" } : Invoice) ∈
      (cleanupOldPayments "/mnt/data" 1791694800000
        (fun pa => if pa = "2026-09-30T05:00:00.000Z" then some 1790744400000
          else if pa = "2026-10-02T05:00:00.000Z" then some 1790917200000
          else none)
        (fun _ => false)
        ⟨[{ id := 1, paid := true, paid_at := some "2026-09-30T05:00:00.000Z",
            payment_file := some "/payments/invoice_1_a.pdf" },
          { id := 2, paid := true, paid_at := some "2026-10-02T05:00:00.000Z",
            payment_file := some "/payments/invoice_2_b.pdf" }], 3⟩
        [fullPath "/mnt/data" "/payments/invoice_1_a.pdf",
         fullPath "/mnt/data" "/payments/invoice_2_b.pdf"]).1.rows ∧
    ({ id := 2, paid := true, paid_at := some "2026-10-02T05:00:00.000Z",
        payment_file := some "/payments/invoice_2_b.pdf" } : Invoice) ∈
      (cleanupPayments "/mnt/data" 1791694800000
        (fun pa => if pa = "2026-09-30T05:00:00.000Z" then some 1790744400000
          else if pa = "2026-10-02T05:00:00.000Z" then some 1790917200000
          else none)
        (fun _ => false)
        ⟨[{ id := 1, paid := true, paid_at := some "2026-09-30T05:00:00.000Z",
            payment_file := some "/payments/invoice_1_a.pdf" },
          { id := 2, paid := true, paid_at := some "2026-10-02T05:00:00.000Z",
            payment_file := some "/payments/invoice_2_b.pdf" }], 3⟩
        [fullPath "/mnt/data" "/payments/invoice_1_a.pdf",
         fullPath "/mnt/data" "/payments/invoice_2_b.pdf"]).1.rows ∧
    fullPath "/mnt/data" "/payments/invoice_2_b.pdf" ∈
      (cleanupPayments "/mnt/data" 1791694800000
        (fun pa => if pa = "2026-09-30T05:00:00.000Z" then some 1790744400000
          else if pa = "2026-10-02T05:00:00.000Z" then some 1790917200000
          else none)
        (fun _ => false)
        ⟨[{ id := 1, paid := true, paid_at := some "2026-09-30T05:00:00.000Z",
            payment_file := some "/payments/invoice_1_a.pdf" },
          { id := 2, paid := true, paid_at := some "2026-10-02T05:00:00.000Z",
            payment_file := some "/payments/invoice_2_b.pdf" }], 3⟩
        [fullPath "/mnt/data" "/payments/invoice_1_a.pdf",
         fullPath "/mnt/data" "/payments/invoice_2_b.pdf"]).2 := by
  have h := sweep_retention_spec "/mnt/data" 1791694800000
    (fun pa => if pa = "2026-09-30T05:00:00.000Z" then some 1790744400000
      else if pa = "2026-10-02T05:00:00.000Z" then some 1790917200000
      else none)
    ⟨[{ id := 1, paid := true, paid_at := some "2026-09-30T05:00:00.000Z",
        payment_file := some "/payments/invoice_1_a.pdf" },
      { id := 2, paid := true, paid_at := some "2026-10-02T05:00:00.000Z",
        payment_file := some "/payments/invoice_2_b.pdf" }], 3⟩
    [fullPath "/mnt/data" "/payments/invoice_1_a.pdf",
     fullPath "/mnt/data" "/payments/invoice_2_b.pdf"]
    (by decide) (by decide) (by decide)
  have h1 := h.2.2
    { id := 1, paid := true, paid_at := some "2026-09-30T05:00:00.000Z",
      payment_file := some "/payments/invoice_1_a.pdf" }
    (List.mem_cons_self _ _)
    "/payments/invoice_1_a.pdf" "2026-09-30T05:00:00.000Z" 1790744400000
    rfl rfl (by decide) (by decide)
  have h2 := h.2.2
    { id := 2, paid := true, paid_at := some "2026-10-02T05:00:00.000Z",
      payment_file := some "/payments/invoice_2_b.pdf" }
    (by simp)
    "/payments/invoice_2_b.pdf" "2026-10-02T05:00:00.000Z" 1790917200000
    rfl rfl (by decide) (by decide)
  have hx := h1.1 (by decide)
  have hn := h2.2 (by decide)
  exact ⟨hx.1.1, hx.1.2, (hx.2.1 (by decide)).1, hn.1,
    (hn.2.2 (by simp)).1⟩

/-! ## Claim C8 -/

/-- C8 counterexample: in variant B `fs.unlink` is fire-and-forget (its
callback only logs) and the `payment_file = NULL` update is issued
unconditionally, so a deletion failure does *not* cause that invoice's
database cleanup to be skipped for the pass: after the sweep the row is
nulled while its file is still on disk. -/
theorem sweep_unlink_failure_still_clears_db :
    cleanupOldPayments "/mnt/data" 1791694800000
        (fun pa => if pa = "2026-09-30T05:00:00.000Z"
          then some 1790744400000 else none)
        (fun p => p == fullPath "/mnt/data" "/payments/invoice_1_a.pdf")
        ⟨[{ id := 1, paid := true, paid_at := some "2026-09-30T05:00:00.000Z",
            payment_file := some "/payments/invoice_1_a.pdf" }], 2⟩
        [fullPath "/mnt/data" "/payments/invoice_1_a.pdf"] =
      (⟨[{ id := 1, paid := true, paid_at := some "2026-09-30T05:00:00.000Z",
           payment_file := none }], 2⟩,
       [fullPath "/mnt/data" "/payments/invoice_1_a.pdf"]) := by decide

/-- C8 (amended): a missing file is indeed tolerated as a non-error in
both variants — under the no-abort hypothesis (every qualifying row's
deletion succeeds or its file is already absent) variant A still nulls
`payment_file` of every qualifying row, and variant B nulls every
qualifying row unconditionally, whatever the unlink outcome.  The
claimed skip-and-retry behaviour, however, exists in neither variant:
variant B never skips the database update on a deletion failure, and in
variant A a real deletion failure makes `fs.unlinkSync` throw, aborting
the whole pass — the failing row *and every later row* keep their
`payment_file` for that pass. -/
theorem sweep_deletion_failure_spec (rootDir : String) (now : Int)
    (parse : String → Option Int) (ufail : String → Bool) (s : Store)
    (fs : Fs) (inv : Invoice) :
    (inv ∈ s.rows → inv.payment_file.isSome = true →
      condB now parse inv = true →
      clearPF inv ∈ (cleanupOldPayments rootDir now parse ufail s fs).1.rows) ∧
    ((∀ it ∈ itemsA s, ∀ pf, it.payment_file = some pf →
        condA now parse it = true →
        ufail (fullPath rootDir pf) = false ∨ fullPath rootDir pf ∉ fs) →
      inv ∈ s.rows → condA now parse inv = true →
      clearPF inv ∈ (cleanupPayments rootDir now parse ufail s fs).1.rows) ∧
    (∀ r1 r2 : Invoice, ∀ n : Nat, ∀ pa1 pf1 t1,
      r1.paid_at = some pa1 → pa1 ≠ "" → parse pa1 = some t1 →
      maxAgeMs < now - t1 → r1.payment_file = some pf1 →
      fullPath rootDir pf1 ∈ fs → ufail (fullPath rootDir pf1) = true →
      r2.payment_file.isSome = true →
      cleanupPayments rootDir now parse ufail ⟨[r1, r2], n⟩ fs =
        (⟨[r1, r2], n⟩, fs)) := by
  refine ⟨fun hinv hpf hcond =>
      cleanupOldPayments_cleans rootDir now parse ufail s fs inv hinv hpf hcond,
    fun hna hinv hcond =>
      cleanupPayments_cleans rootDir now parse ufail s fs inv hna hinv hcond,
    ?_⟩
  intro r1 r2 n pa1 pf1 t1 hpa1 hpe1 hp1 hex1 hpf1 hin1 hu1 hr2
  have hitems : itemsA ⟨[r1, r2], n⟩ = [r1, r2] := by
    simp [itemsA, List.filter, hpf1, hr2]
  have h1 : stepA rootDir now parse ufail ⟨[r1, r2], fs, false⟩ r1 =
      ⟨[r1, r2], fs, true⟩ := by
    simp [stepA, hpa1, hpe1, hp1, hex1, hpf1, hin1, hu1]
  have h2 : stepA rootDir now parse ufail ⟨[r1, r2], fs, true⟩ r2 =
      ⟨[r1, r2], fs, true⟩ :=
    stepA_of_aborted rootDir now parse ufail _ r2 rfl
  simp only [cleanupPayments, hitems, List.foldl_cons, List.foldl_nil, h1, h2]

/-- Witness for C8: with one failing deletion in front of a deletable
expired row, variant A's pass changes nothing at all, while variant B
still nulls the failing row. -/
theorem sweep_deletion_failure_spec_witness :
    cleanupPayments "/mnt/data" 1791694800000
        (fun pa => if pa = "2026-09-30T05:00:00.000Z"
          then some 1790744400000 else none)
        (fun p => p == fullPath "/mnt/data" "/payments/invoice_1_a.pdf")
        ⟨[{ id := 1, paid := true, paid_at := some "2026-09-30T05:00:00.000Z",
            payment_file := some "/payments/invoice_1_a.pdf" },
          { id := 2, paid := true, paid_at := some "2026-09-30T05:00:00.000Z",
            payment_file := some "/payments/invoice_2_b.pdf" }], 3⟩
        [fullPath "/mnt/data" "/payments/invoice_1_a.pdf",
         fullPath "/mnt/data" "/payments/invoice_2_b.pdf"] =
      (⟨[{ id := 1, paid := true, paid_at := some "2026-09-30T05:00:00.000Z",
            payment_file := some "/payments/invoice_1_a.pdf" },
          { id := 2, paid := true, paid_at := some "2026-09-30T05:00:00.000Z",
            payment_file := some "/payments/invoice_2_b.pdf" }], 3⟩,
        [fullPath "/mnt/data" "/payments/invoice_1_a.pdf",
         fullPath "/mnt/data" "/payments/invoice_2_b.pdf"]) ∧
    clearPF
      ({ id := 1, paid := true, paid_at := some "2026-09-30T05:00:00.000Z",
         payment_file := some "/payments/invoice_1_a.pdf" } : Invoice) ∈
      (cleanupOldPayments "/mnt/data" 1791694800000
        (fun pa => if pa = "2026-09-30T05:00:00.000Z"
          then some 1790744400000 else none)
        (fun p => p == fullPath "/mnt/data" "/payments/invoice_1_a.pdf")
        ⟨[{ id := 1, paid := true, paid_at := some "2026-09-30T05:00:00.000Z",
            payment_file := some "/payments/invoice_1_a.pdf" },
          { id := 2, paid := true, paid_at := some "2026-09-30T05:00:00.000Z",
            payment_file := some "/payments/invoice_2_b.pdf" }], 3⟩
        [fullPath "/mnt/data" "/payments/invoice_1_a.pdf",
         fullPath "/mnt/data" "/payments/invoice_2_b.pdf"]).1.rows := by
  have h := sweep_deletion_failure_spec "/mnt/data" 1791694800000
    (fun pa => if pa = "2026-09-30T05:00:00.000Z"
      then some 1790744400000 else none)
    (fun p => p == fullPath "/mnt/data" "/payments/invoice_1_a.pdf")
    ⟨[{ id := 1, paid := true, paid_at := some "2026-09-30T05:00:00.000Z",
        payment_file := some "/payments/invoice_1_a.pdf" },
      { id := 2, paid := true, paid_at := some "2026-09-30T05:00:00.000Z",
        payment_file := some "/payments/invoice_2_b.pdf" }], 3⟩
    [fullPath "/mnt/data" "/payments/invoice_1_a.pdf",
     fullPath "/mnt/data" "/payments/invoice_2_b.pdf"]
    { id := 1, paid := true, paid_at := some "2026-09-30T05:00:00.000Z",
      payment_file := some "/payments/invoice_1_a.pdf" }
  refine ⟨?_, h.1 (List.mem_cons_self _ _) rfl (by decide)⟩
  exact h.2.2
    { id := 1, paid := true, paid_at := some "2026-09-30T05:00:00.000Z",
      payment_file := some "/payments/invoice_1_a.pdf" }
    { id := 2, paid := true, paid_at := some "2026-09-30T05:00:00.000Z",
      payment_file := some "/payments/invoice_2_b.pdf" }
    3 "2026-09-30T05:00:00.000Z" "/payments/invoice_1_a.pdf" 1790744400000
    rfl (by decide) (by decide) (by decide) rfl (by decide) (by decide) rfl

/-! ## Claim C9 -/

/-- C9 counterexample: variant A's startup (`initDB().then(listen)`, src
lines 209-212) calls no sweep — an invoice expired for over 10 days keeps
its file and `payment_file` across startup, although a sweep of the very
same state would delete the file and null the reference. -/
theorem startupA_performs_no_sweep :
    startupA
        ⟨[{ id := 1, paid := true, paid_at := some "2026-09-30T05:00:00.000Z",
            payment_file := some "/payments/invoice_1_a.pdf" }], 2⟩
        [fullPath "/mnt/data" "/payments/invoice_1_a.pdf"] =
      (⟨[{ id := 1, paid := true, paid_at := some "2026-09-30T05:00:00.000Z",
            payment_file := some "/payments/invoice_1_a.pdf" }], 2⟩,
        [fullPath "/mnt/data" "/payments/invoice_1_a.pdf"]) ∧
    cleanupPayments "/mnt/data" 1791694800000
        (fun pa => if pa = "2026-09-30T05:00:00.000Z"
          then some 1790744400000 else none)
        (fun _ => false)
        ⟨[{ id := 1, paid := true, paid_at := some "2026-09-30T05:00:00.000Z",
            payment_file := some "/payments/invoice_1_a.pdf" }], 2⟩
        [fullPath "/mnt/data" "/payments/invoice_1_a.pdf"] =
      (⟨[{ id := 1, paid := true, paid_at := some "2026-09-30T05:00:00.000Z",
            payment_file := none }], 2⟩, []) := by decide

/-- C9 (amended): variant B sweeps at process start and on every
`listHistory` call (whose state effect is exactly the sweep's); variant A
sweeps *only* on `listHistory` — its startup changes nothing.  No other
operation acts as a sweep: `create` only appends a row, `updateFlag` and
`markPaid` keep every row's `payment_file`, `attachPaymentFile` never
clears a `payment_file` and only adds to the payments directory, and
`listUnpaid` is a pure query.  (A background timer does not exist in the
source: the only call sites of the cleanup functions are startup (B) and
the history route.) -/
theorem sweep_triggers_spec (rootDir nowIso today threshold : String)
    (now nowMs : Int) (parse : String → Option Int) (ufail : String → Bool)
    (b : CreateBody) (i : Nat) (flag filePresent : Bool) (mime : String)
    (s : Store) (fs : Fs) :
    startupB rootDir now parse ufail s fs =
      cleanupOldPayments rootDir now parse ufail s fs ∧
    (listHistoryA rootDir now threshold parse ufail s fs).2 =
      cleanupPayments rootDir now parse ufail s fs ∧
    (listHistoryB rootDir now parse ufail s fs).2 =
      cleanupOldPayments rootDir now parse ufail s fs ∧
    startupA s fs = (s, fs) ∧
    (∃ row, (createA nowIso today b s).2.rows = s.rows ++ [row]) ∧
    ((createB nowIso b s).2.rows = s.rows ∨
      ∃ row, (createB nowIso b s).2.rows = s.rows ++ [row]) ∧
    List.Forall₂ (fun r r2 => r2.payment_file = r.payment_file) s.rows
      (updateFlagA i flag s).2.rows ∧
    List.Forall₂ (fun r r2 => r2.payment_file = r.payment_file) s.rows
      (updateFlagB i flag s).2.rows ∧
    List.Forall₂ (fun r r2 => r2.payment_file = r.payment_file) s.rows
      (markPaidA nowIso i s).2.rows ∧
    List.Forall₂ (fun r r2 => r2.payment_file = r.payment_file) s.rows
      (markPaidB nowIso i s).2.rows ∧
    List.Forall₂ (fun r r2 => r2.payment_file = r.payment_file ∨
        r2.payment_file.isSome = true) s.rows
      (uploadPaymentA rootDir nowIso nowMs i filePresent mime s fs).2.1.rows ∧
    fs ⊆ (uploadPaymentA rootDir nowIso nowMs i filePresent mime s fs).2.2 ∧
    List.Forall₂ (fun r r2 => r2.payment_file = r.payment_file ∨
        r2.payment_file.isSome = true) s.rows
      (uploadPaymentB rootDir nowIso nowMs i filePresent mime s fs).2.1.rows ∧
    fs ⊆ (uploadPaymentB rootDir nowIso nowMs i filePresent mime s fs).2.2 := by
  have hupdB : (updateFlagB i flag s).2.rows = setFlagById s.rows i flag := by
    simp only [updateFlagB]
    split <;> rfl
  have hmpB : (markPaidB nowIso i s).2.rows = markRowPaid s.rows i nowIso := by
    simp only [markPaidB]
    split <;> rfl
  have hflag : List.Forall₂ (fun r r2 => r2.payment_file = r.payment_file)
      s.rows (setFlagById s.rows i flag) :=
    forall₂_map_self _ _ (fun r => by by_cases h : r.id = i <;> simp [h])
  have hmark : List.Forall₂ (fun r r2 => r2.payment_file = r.payment_file)
      s.rows (markRowPaid s.rows i nowIso) :=
    forall₂_map_self _ _ (fun r => by by_cases h : r.id = i <;> simp [h])
  have hself : List.Forall₂ (fun r r2 : Invoice =>
      r2.payment_file = r.payment_file ∨ r2.payment_file.isSome = true)
      s.rows s.rows :=
    List.forall₂_same.mpr fun _ _ => Or.inl rfl
  have hset : List.Forall₂ (fun r r2 : Invoice =>
      r2.payment_file = r.payment_file ∨ r2.payment_file.isSome = true)
      s.rows (setRowPaidFile s.rows i nowIso
        ("/payments/" ++ uploadFileName i nowMs)) :=
    forall₂_map_self _ _ (fun r => by by_cases h : r.id = i <;> simp [h])
  refine ⟨rfl, rfl, rfl, rfl, ⟨_, rfl⟩, ?_, hflag, hupdB ▸ hflag,
    hmark, hmpB ▸ hmark, ?_, ?_, ?_, ?_⟩
  · by_cases h : (strFalsy b.supplier || strFalsy b.organization_type ||
        intFalsy b.amount) = true
    · exact Or.inl (by simp [createB, h])
    · have hc : (createB nowIso b s).2.rows = s.rows ++
          [{ id := s.nextId, supplier := b.supplier,
             organization_type := b.organization_type, amount := b.amount,
             created_at := some nowIso, arrival_date := none,
             need_new_request := b.need_new_request, paid := false,
             payment_file := none, paid_at := none }] := by
        simp [createB, h]
      exact Or.inr ⟨_, hc⟩
  · by_cases hfp : filePresent
    · by_cases hm : mime = pdfMime
      · simp only [uploadPaymentA, hfp, hm, if_true]
        exact hset
      · simp only [uploadPaymentA, hfp, hm, if_true, if_false]
        exact hself
    · simp only [uploadPaymentA, hfp, if_false]
      exact hself
  · by_cases hfp : filePresent
    · by_cases hm : mime = pdfMime
      · simp only [uploadPaymentA, hfp, hm, if_true]
        exact List.subset_append_left _ _
      · simp only [uploadPaymentA, hfp, hm, if_true, if_false]
        exact List.Subset.refl _
    · simp only [uploadPaymentA, hfp, if_false]
      exact List.Subset.refl _
  · by_cases hfp : filePresent
    · by_cases hm : mime = pdfMime
      · simp only [uploadPaymentB, hfp, hm, if_true]
        split
        · exact hset
        · exact hself
      · simp only [uploadPaymentB, hfp, hm, if_true, if_false]
        exact hself
    · simp only [uploadPaymentB, hfp, if_false]
      exact hself
  · by_cases hfp : filePresent
    · by_cases hm : mime = pdfMime
      · simp only [uploadPaymentB, hfp, hm, if_true]
        split <;> exact List.subset_append_left _ _
      · simp only [uploadPaymentB, hfp, hm, if_true, if_false]
        exact List.Subset.refl _
    · simp only [uploadPaymentB, hfp, if_false]
      exact List.Subset.refl _

/-! ## Claim C3 -/

theorem unpaidClean_append (s : Store) (row : Invoice) (n : Nat)
    (h : UnpaidClean s)
    (hrow : row.paid = false → row.paid_at = none ∧ row.payment_file = none) :
    UnpaidClean ⟨s.rows ++ [row], n⟩ := by
  intro inv hm hp
  rcases List.mem_append.mp hm with hm | hm
  · exact h inv hm hp
  · rw [List.mem_singleton.mp hm]
    exact hrow (by rw [← List.mem_singleton.mp hm]; exact hp)

theorem unpaidClean_map (s : Store) (f : Invoice → Invoice) (n : Nat)
    (hf : ∀ r ∈ s.rows, (f r).paid = false →
      (f r).paid_at = none ∧ (f r).payment_file = none) :
    UnpaidClean ⟨s.rows.map f, n⟩ := by
  intro inv hm hp
  rcases List.mem_map.mp hm with ⟨r, hr, rfl⟩
  exact hf r hr hp

theorem unpaidClean_of_rowRel (s : Store) (rows2 : List Invoice) (n : Nat)
    (h : UnpaidClean s) (h2 : List.Forall₂ RowRel s.rows rows2) :
    UnpaidClean ⟨rows2, n⟩ := by
  intro inv hm hp
  obtain ⟨r, hr, hrel⟩ := forall₂_mem_right h2 inv hm
  obtain ⟨_, hpaid, hpa, _, hpf⟩ := hrel.fields
  rw [hpaid] at hp
  obtain ⟨h3, h4⟩ := h r hr hp
  rcases hpf with h5 | h5
  · exact ⟨hpa.trans h3, h5.trans h4⟩
  · exact ⟨hpa.trans h3, h5⟩

/-- C3: every store state reachable through the server API from a fresh
database satisfies the invariant `paid=false ⇒ paid_at=NULL ∧
payment_file=NULL`: creation establishes it and every operation of both
variants (update, mark-paid, upload, both sweeps, both history routes)
preserves it. -/
theorem reachable_unpaid_clean (s : Store) (h : Reachable s) :
    UnpaidClean s := by
  induction h with
  | refl => intro inv hm _; cases hm
  | @tail b c h1 hstep ih =>
    cases hstep with
    | createA nowIso today b2 =>
      exact unpaidClean_append b _ _ ih (fun _ => ⟨rfl, rfl⟩)
    | createB nowIso b2 =>
      by_cases hv : (strFalsy b2.supplier || strFalsy b2.organization_type ||
          intFalsy b2.amount) = true
      · have heq : (createB nowIso b2 b).2 = b := by simp [createB, hv]
        rw [heq]; exact ih
      · have heq : (createB nowIso b2 b).2 =
            ⟨b.rows ++
              [{ id := b.nextId, supplier := b2.supplier,
                 organization_type := b2.organization_type,
                 amount := b2.amount, created_at := some nowIso,
                 arrival_date := none,
                 need_new_request := b2.need_new_request, paid := false,
                 payment_file := none, paid_at := none }],
              b.nextId + 1⟩ := by
          simp [createB, hv]
        rw [heq]
        exact unpaidClean_append b _ _ ih (fun _ => ⟨rfl, rfl⟩)
    | updateFlagA i flag =>
      refine unpaidClean_map b _ _ ?_
      intro r hr hp
      by_cases hid : r.id = i
      · simp only [hid, if_pos] at hp ⊢
        exact (ih r hr hp :)
      · simp only [hid, if_neg, if_false] at hp ⊢
        exact ih r hr hp
    | updateFlagB i flag =>
      have heq : (updateFlagB i flag b).2 =
          ⟨setFlagById b.rows i flag, b.nextId⟩ := by
        simp only [updateFlagB]
        split <;> rfl
      rw [heq]
      refine unpaidClean_map b _ _ ?_
      intro r hr hp
      by_cases hid : r.id = i
      · simp only [hid, if_pos] at hp ⊢
        exact (ih r hr hp :)
      · simp only [hid, if_neg, if_false] at hp ⊢
        exact ih r hr hp
    | markPaidA nowIso i =>
      refine unpaidClean_map b _ _ ?_
      intro r hr hp
      by_cases hid : r.id = i
      · simp [hid] at hp
      · simp only [hid, if_neg, if_false] at hp ⊢
        exact ih r hr hp
    | markPaidB nowIso i =>
      have heq : (markPaidB nowIso i b).2 =
          ⟨markRowPaid b.rows i nowIso, b.nextId⟩ := by
        simp only [markPaidB]
        split <;> rfl
      rw [heq]
      refine unpaidClean_map b _ _ ?_
      intro r hr hp
      by_cases hid : r.id = i
      · simp [hid] at hp
      · simp only [hid, if_neg, if_false] at hp ⊢
        exact ih r hr hp
    | uploadPaymentA rootDir nowIso nowMs i filePresent mime sx fs =>
      by_cases hfp : filePresent
      · by_cases hm : mime = pdfMime
        · have heq : (uploadPaymentA rootDir nowIso nowMs i filePresent
              mime b fs).2.1 =
              ⟨setRowPaidFile b.rows i nowIso
                ("/payments/" ++ uploadFileName i nowMs), b.nextId⟩ := by
            simp [uploadPaymentA, hfp, hm]
          rw [heq]
          refine unpaidClean_map b _ _ ?_
          intro r hr hp
          by_cases hid : r.id = i
          · simp [hid] at hp
          · simp only [hid, if_neg, if_false] at hp ⊢
            exact ih r hr hp
        · have heq : (uploadPaymentA rootDir nowIso nowMs i filePresent
              mime b fs).2.1 = b := by
            simp [uploadPaymentA, hfp, hm]
          rw [heq]; exact ih
      · have heq : (uploadPaymentA rootDir nowIso nowMs i filePresent
            mime b fs).2.1 = b := by
          simp [uploadPaymentA, hfp]
        rw [heq]; exact ih
    | uploadPaymentB rootDir nowIso nowMs i filePresent mime sx fs =>
      by_cases hfp : filePresent
      · by_cases hm : mime = pdfMime
        · by_cases hany : (b.rows.any fun r => r.id = i) = true
          · have heq : (uploadPaymentB rootDir nowIso nowMs i filePresent
                mime b fs).2.1 =
                ⟨setRowPaidFile b.rows i nowIso
                  ("/payments/" ++ uploadFileName i nowMs), b.nextId⟩ := by
              simp [uploadPaymentB, hfp, hm, hany]
            rw [heq]
            refine unpaidClean_map b _ _ ?_
            intro r hr hp
            by_cases hid : r.id = i
            · simp [hid] at hp
            · simp only [hid, if_neg, if_false] at hp ⊢
              exact ih r hr hp
          · have heq : (uploadPaymentB rootDir nowIso nowMs i filePresent
                mime b fs).2.1 = b := by
              simp [uploadPaymentB, hfp, hm, hany]
            rw [heq]; exact ih
        · have heq : (uploadPaymentB rootDir nowIso nowMs i filePresent
              mime b fs).2.1 = b := by
            simp [uploadPaymentB, hfp, hm]
          rw [heq]; exact ih
      · have heq : (uploadPaymentB rootDir nowIso nowMs i filePresent
            mime b fs).2.1 = b := by
          simp [uploadPaymentB, hfp]
        rw [heq]; exact ih
    | cleanupPayments rootDir now parse uf sx fs =>
      exact unpaidClean_of_rowRel b _ _ ih
        (cleanupPayments_shape rootDir now parse uf b fs)
    | cleanupOldPayments rootDir now parse uf sx fs =>
      exact unpaidClean_of_rowRel b _ _ ih
        (cleanupOldPayments_shape rootDir now parse uf b fs)
    | listHistoryA rootDir now threshold parse uf sx fs =>
      exact unpaidClean_of_rowRel b _ _ ih
        (cleanupPayments_shape rootDir now parse uf b fs)
    | listHistoryB rootDir now parse uf sx fs =>
      exact unpaidClean_of_rowRel b _ _ ih
        (cleanupOldPayments_shape rootDir now parse uf b fs)

/-- Witness for C3: the invariant holds of the store right after a
successful create. -/
theorem reachable_unpaid_clean_witness :
    UnpaidClean (createB "2026-10-11T05:00:00.000Z"
      { supplier := some "Acme", organization_type := some "LLC",
        amount := some 150 } initialStore).2 :=
  reachable_unpaid_clean _
    (Relation.ReflTransGen.single (Step.createB "2026-10-11T05:00:00.000Z"
      { supplier := some "Acme", organization_type := some "LLC",
        amount := some 150 } initialStore))

/-! ## Claim C2 -/

/-- C2 counterexample: variant A's history query compares the TEXT
column `paid_at` with the string SQLite renders for
`datetime('now','-10 days')` byte-wise.  At `now` = 2026-10-11T05:00:00Z
the threshold string is `"2026-10-01 05:00:00"`; an invoice with
`paid_at = "2026-10-01T02:00:00.000Z"` (`Date.parse` = 1790820000000, 10
days and 3 hours ago — *older* than the retention window) still compares
greater, because at the first differing byte `'T' > ' '`; the row is
returned by `listHistory` although its `paid_at` is outside the window. -/
theorem historyA_includes_out_of_window_row :
    (listHistoryA "/mnt/data" 1791694800000 "2026-10-01 05:00:00"
        (fun pa => if pa = "2026-10-01T02:00:00.000Z" then some 1790820000000
          else none)
        (fun _ => false)
        ⟨[{ id := 1, paid := true,
            paid_at := some "2026-10-01T02:00:00.000Z" }], 2⟩ []).1 =
      [{ id := 1, paid := true,
         paid_at := some "2026-10-01T02:00:00.000Z" }] ∧
    1791694800000 - 1790820000000 > maxAgeMs := by decide

/-- C2 (amended): in the sqlite3 variant every `listHistory` call first
runs the retention sweep (its store and disk effect is exactly the
sweep's), then returns exactly the invoices of the swept store with
`paid=true` and a `paid_at` no older than 10 days (so an invoice older
than the window is never in the result, whatever its `payment_file`),
ordered newest-paid-first; every invoice of the store survives with
`id`, `paid` and `paid_at` intact.  (The sql.js variant's string-compared
filter can additionally return rows up to one calendar day older than
the window — see the counterexample.) -/
theorem listHistoryB_spec (rootDir : String) (now : Int)
    (parse : String → Option Int) (ufail : String → Bool) (s : Store)
    (fs : Fs) :
    (listHistoryB rootDir now parse ufail s fs).2 =
      cleanupOldPayments rootDir now parse ufail s fs ∧
    (∀ r, r ∈ (listHistoryB rootDir now parse ufail s fs).1 ↔
      (r ∈ (cleanupOldPayments rootDir now parse ufail s fs).1.rows ∧
        histPredB now parse r = true)) ∧
    (∀ r ∈ (listHistoryB rootDir now parse ufail s fs).1,
      r.paid = true ∧ ∃ pa t, r.paid_at = some pa ∧ parse pa = some t ∧
        now - t ≤ maxAgeMs) ∧
    (listHistoryB rootDir now parse ufail s fs).1.Sorted
      (fun a b => histTimeB parse b ≤ histTimeB parse a) ∧
    (∀ r ∈ s.rows,
      ∃ r2 ∈ (cleanupOldPayments rootDir now parse ufail s fs).1.rows,
        r2.id = r.id ∧ r2.paid = r.paid ∧ r2.paid_at = r.paid_at) := by
  have hperm := List.perm_insertionSort
    (fun a b => histTimeB parse b ≤ histTimeB parse a)
    ((cleanupOldPayments rootDir now parse ufail s fs).1.rows.filter
      (histPredB now parse))
  have hmem : ∀ r, r ∈ (listHistoryB rootDir now parse ufail s fs).1 ↔
      r ∈ (cleanupOldPayments rootDir now parse ufail s fs).1.rows.filter
        (histPredB now parse) :=
    fun r => hperm.mem_iff
  refine ⟨rfl, ?_, ?_, ?_, ?_⟩
  · intro r
    rw [hmem r, List.mem_filter]
  · intro r hr
    have hp := (List.mem_filter.mp ((hmem r).mp hr)).2
    obtain ⟨hpaid, h2⟩ := Bool.and_eq_true _ _ ▸ hp
    rcases hpa : r.paid_at with _ | pa
    · simp [hpa] at h2
    · rcases hp2 : parse pa with _ | t
      · simp [hpa, hp2] at h2
      · simp only [hpa, hp2, decide_eq_true_eq] at h2
        exact ⟨hpaid, pa, t, rfl, hp2, h2⟩
  · haveI : IsTotal Invoice
        (fun a b => histTimeB parse b ≤ histTimeB parse a) :=
      ⟨fun a b => le_total _ _⟩
    haveI : IsTrans Invoice
        (fun a b => histTimeB parse b ≤ histTimeB parse a) :=
      ⟨fun a b c h1 h2 => le_trans h2 h1⟩
    exact List.sorted_insertionSort _ _
  · intro r hr
    exact forall₂_mem_left
      (cleanupOldPayments_paid_preserved rootDir now parse ufail s fs) r hr

/-- Witness for C2: a row paid 9 days before `now` is returned by the
sqlite3 history route. -/
theorem listHistoryB_spec_witness :
    ({ id := 1, paid := true,
        paid_at := some "2026-10-02T05:00:00.000Z" } : Invoice) ∈
      (listHistoryB "/mnt/data" 1791694800000
        (fun pa => if pa = "2026-10-02T05:00:00.000Z" then some 1790917200000
          else none)
        (fun _ => false)
        ⟨[{ id := 1, paid := true,
            paid_at := some "2026-10-02T05:00:00.000Z" }], 2⟩ []).1 :=
  ((listHistoryB_spec "/mnt/data" 1791694800000
      (fun pa => if pa = "2026-10-02T05:00:00.000Z" then some 1790917200000
        else none)
      (fun _ => false)
      ⟨[{ id := 1, paid := true,
          paid_at := some "2026-10-02T05:00:00.000Z" }], 2⟩ []).2.1 _).mpr
    (by decide)

/-- Witness for C9 at a concrete state: startup is the sweep in variant B
and the identity in variant A. -/
theorem sweep_triggers_spec_witness :
    startupB "/mnt/data" 1791694800000 (fun _ => none) (fun _ => false)
        ⟨[{ id := 1, paid := false }], 2⟩ ["/mnt/data/payments/x.pdf"] =
      cleanupOldPayments "/mnt/data" 1791694800000 (fun _ => none)
        (fun _ => false) ⟨[{ id := 1, paid := false }], 2⟩
        ["/mnt/data/payments/x.pdf"] ∧
    startupA ⟨[{ id := 1, paid := false }], 2⟩ ["/mnt/data/payments/x.pdf"] =
      (⟨[{ id := 1, paid := false }], 2⟩, ["/mnt/data/payments/x.pdf"]) :=
  have h := sweep_triggers_spec "/mnt/data" "2026-10-11T05:00:00.000Z"
    "2026-10-11" "2026-10-01 05:00:00" 1791694800000 1791694800000
    (fun _ => none) (fun _ => false) {} 1 true true "application/pdf"
    ⟨[{ id := 1, paid := false }], 2⟩ ["/mnt/data/payments/x.pdf"]
  ⟨h.1, h.2.2.2.1⟩

end Nakladie
